import Mathlib

/-!
Verification development for the stellar-etl effect engine
(`internal/transform`), a shallow embedding of the per-operation effect
derivation (`effects`, its per-operation-type generators and the
cross-cutting sweeps) together with proofs of the specified properties.

Go `map[string]interface{}` detail sets are embedded as insertion-ordered
association lists with overwrite-on-assignment (`dset`), which represents
the unordered Go map faithfully because only the key/value graph of a
detail set is ever observed.  Machine integers (`xdr.Int64`) are embedded
as `Int`; the inputs handled by the engine never overflow these
conversions, and no arithmetic in the embedded fragment wraps.
-/

namespace StellarEtl

/-- A heterogeneous detail value, embedding the `interface{}` values the
engine stores in effect detail maps: strings, integers, booleans, lists
and nested string-keyed objects. -/
inductive Val where
  | str (s : String)
  | int (n : Int)
  | bool (b : Bool)
  | list (l : List Val)
  | obj (l : List (String × Val))

/-- A detail set: the embedding of a Go `map[string]interface{}`, as an
insertion-ordered association list. -/
abbrev Details := List (String × Val)

/-- Go map assignment `d[k] = v`: overwrite the binding of `k` if present,
otherwise append it. -/
def dset (d : Details) (k : String) (v : Val) : Details :=
  if d.any (fun kv => kv.1 == k) then
    d.map (fun kv => if kv.1 == k then (k, v) else kv)
  else
    d ++ [(k, v)]

/-- Go map lookup `d[k]` (first binding wins; `dset` keeps keys unique). -/
def dlookup (d : Details) (k : String) : Option Val :=
  List.lookup k d

/-! ## Assets and accounts -/

/-- Asset type discriminant (native or issued credit asset). -/
inductive AssetType where
  | native
  | creditAlphanum4
  | creditAlphanum12
  deriving Repr, DecidableEq

/-- An asset: the embedding of `xdr.Asset` restricted to what the effect
engine observes (type, code, issuer). -/
structure Asset where
  type : AssetType
  code : String
  issuer : String
  deriving Repr, DecidableEq

/-- Modelled from the spec: the canonical string form of an asset used as
a sort/lookup key (`xdr.Asset.StringCanonical`, provided by the external
serialization collaborator): `"native"` for the native asset, otherwise
`code:issuer`. -/
def Asset.stringCanonical (a : Asset) : String :=
  match a.type with
  | .native => "native"
  | _ => a.code ++ ":" ++ a.issuer

/-- Rank of an asset type in the canonical asset ordering. -/
def AssetType.rank : AssetType → Nat
  | .native => 0
  | .creditAlphanum4 => 1
  | .creditAlphanum12 => 2

/-- Modelled from the spec: the canonical asset ordering
(`xdr.Asset.LessThan`, provided by the external collaborator), ordering by
asset type, then code, then issuer. -/
def assetLT (a b : Asset) : Prop :=
  a.type.rank < b.type.rank ∨
    (a.type.rank = b.type.rank ∧
      (a.code < b.code ∨ (a.code = b.code ∧ a.issuer < b.issuer)))

instance : DecidableRel assetLT := fun a b => by
  unfold assetLT; infer_instance

/-- The string name of an asset type in detail sets. -/
def AssetType.detailName : AssetType → String
  | .native => "native"
  | .creditAlphanum4 => "credit_alphanum4"
  | .creditAlphanum12 => "credit_alphanum12"

/-- Modelled from the spec: `addAssetDetails` (its definition is not among
the provided sources; only its callers are).  Attaches the asset detail
fields under a key prefix: the asset type always, and code/issuer for
non-native assets. -/
def addAssetDetails (d : Details) (a : Asset) (pfx : String) : Details :=
  match a.type with
  | .native => dset d (pfx ++ "asset_type") (.str "native")
  | t =>
      let d := dset d (pfx ++ "asset_type") (.str t.detailName)
      let d := dset d (pfx ++ "asset_code") (.str a.code)
      dset d (pfx ++ "asset_issuer") (.str a.issuer)

/-- A (possibly multiplexed) account, embedding `xdr.MuxedAccount`: the
underlying account id address together with the multiplexed address when
the key type is muxed. -/
structure MuxedAccount where
  accountId : String
  muxedAddress : Option String
  deriving Repr, DecidableEq

/-- Modelled from the spec: `addAccountAndMuxedAccountDetails` (definition
not among the provided sources).  Stores the account address under the
given key and, for a multiplexed account, the muxed form under a suffixed
key. -/
def addAccountAndMuxedAccountDetails (d : Details) (a : MuxedAccount)
    (key : String) : Details :=
  let d := dset d key (.str a.accountId)
  match a.muxedAddress with
  | some m => dset d (key ++ "_muxed") (.str m)
  | none => d

/-! ## Decimal amount strings -/

/-- The decimal digit character for `n < 10`. -/
def digitChar (n : Nat) : Char := Char.ofNat (48 + n)

/-- The decimal digit string of a natural number, most significant digit
first (the embedding of `%d` formatting for non-negative integers). -/
def natDigits (n : Nat) : List Char :=
  if n = 0 then [digitChar 0]
  else ((Nat.digits 10 n).map digitChar).reverse

/-- Decimal digit list of an `Int`, with a leading minus sign when
negative (the embedding of `%d` formatting). -/
def intDigits (n : Int) : List Char :=
  if n < 0 then Char.ofNat 45 :: natDigits n.natAbs else natDigits n.natAbs

/-- Left-pad a digit list with zeros to width `w`. -/
def padLeftZeros (w : Nat) (l : List Char) : List Char :=
  List.replicate (w - l.length) (digitChar 0) ++ l

/-- Modelled from the spec: `amount.String` (external collaborator): the
fixed-point decimal string of a stroop amount, an integer numerator over
the implicit denominator 10,000,000, printed with 7 fractional digits. -/
def amountString (n : Int) : String :=
  let a := n.natAbs
  let sign : List Char := if n < 0 then [Char.ofNat 45] else []
  String.mk (sign ++ natDigits (a / 10000000) ++
    Char.ofNat 46 :: padLeftZeros 7 (natDigits (a % 10000000)))

/-! ## Ledger entries and changes -/

/-- The entry kind of a ledger entry change (`xdr.LedgerEntryType`). -/
inductive LedgerEntryType where
  | account
  | trustline
  | offer
  | data
  | claimableBalance
  | liquidityPool
  | contractData
  | contractCode
  | configSetting
  | ttl
  deriving Repr, DecidableEq

/-- An account entry, restricted to the fields the effect engine reads:
its id and the per-signer sponsor map (`SponsorPerSigner`), embedded as an
association list from signer key to sponsoring account address.  The list
order embeds the (unspecified) Go map iteration order. -/
structure AccountEntry where
  accountId : String
  signerSponsors : List (String × String)
  deriving Repr, DecidableEq

/-- The asset of a trustline entry: either a plain asset or a
liquidity-pool share (`xdr.TrustLineAsset`). -/
inductive TrustLineAsset where
  | asset (a : Asset)
  | poolShare (poolId : String)
  deriving Repr, DecidableEq

/-- A trustline entry, restricted to the fields the engine reads. -/
structure TrustLineEntry where
  accountId : String
  asset : TrustLineAsset
  deriving Repr, DecidableEq

/-- A data entry, restricted to the fields the engine reads. -/
structure DataEntry where
  dataName : String
  deriving Repr, DecidableEq

/-- A claimable-balance entry, restricted to the fields the engine reads.
The balance identifier is embedded as its hex string form
(`xdr.MarshalHex` of the id, performed by the external serialization
collaborator, is the identity on this embedding). -/
structure ClaimableBalanceEntry where
  balanceId : String
  asset : Asset
  amount : Int
  deriving Repr, DecidableEq

/-- The constant-product body of a liquidity-pool entry. -/
structure LPConstantProduct where
  assetA : Asset
  assetB : Asset
  fee : Int
  reserveA : Int
  reserveB : Int
  totalPoolShares : Int
  poolSharesTrustLineCount : Int
  deriving Repr, DecidableEq

/-- The body of a liquidity-pool entry; the `other` constructor embeds any
future non-constant-product body type (its numeric tag). -/
inductive LPBody where
  | constantProduct (cp : LPConstantProduct)
  | other (tag : Int)
  deriving Repr, DecidableEq

/-- A liquidity-pool entry.  The pool id is embedded as its hex string
(`PoolIDToString` is the identity on this embedding). -/
structure LiquidityPoolEntry where
  liquidityPoolId : String
  body : LPBody
  deriving Repr, DecidableEq

instance : Inhabited LiquidityPoolEntry :=
  ⟨{ liquidityPoolId := ""
     body := .constantProduct
       { assetA := { type := .native, code := "", issuer := "" }
         assetB := { type := .native, code := "", issuer := "" }
         fee := 0, reserveA := 0, reserveB := 0
         totalPoolShares := 0, poolSharesTrustLineCount := 0 } }⟩

/-- The data payload of a ledger entry, restricted to the entry kinds and
fields the effect engine reads. -/
inductive LedgerEntryData where
  | account (a : AccountEntry)
  | trustline (t : TrustLineEntry)
  | data (d : DataEntry)
  | claimableBalance (cb : ClaimableBalanceEntry)
  | liquidityPool (lp : LiquidityPoolEntry)
  | offer
  | otherKind
  deriving Repr, DecidableEq

/-- `Data.MustAccount`: the account payload.  The mismatch branch (a
panic in the source) is unreachable under the change-kind invariant. -/
def LedgerEntryData.mustAccount : LedgerEntryData → AccountEntry
  | .account a => a
  | _ => { accountId := "", signerSponsors := [] }

/-- `Data.MustTrustLine`, as `mustAccount`. -/
def LedgerEntryData.mustTrustLine : LedgerEntryData → TrustLineEntry
  | .trustline t => t
  | _ => { accountId := "", asset := .poolShare "" }

/-- `Data.MustData`, as `mustAccount`. -/
def LedgerEntryData.mustData : LedgerEntryData → DataEntry
  | .data d => d
  | _ => { dataName := "" }

/-- `Data.MustClaimableBalance`, as `mustAccount`. -/
def LedgerEntryData.mustClaimableBalance :
    LedgerEntryData → ClaimableBalanceEntry
  | .claimableBalance cb => cb
  | _ => { balanceId := ""
           asset := { type := .native, code := "", issuer := "" }
           amount := 0 }

/-- `Data.LiquidityPool` (a direct pointer dereference in the source), as
`mustAccount`. -/
def LedgerEntryData.mustLiquidityPool : LedgerEntryData → LiquidityPoolEntry
  | .liquidityPool lp => lp
  | _ => default

/-- One side of a ledger-entry change: the entry data together with the
optional sponsoring account (`SponsoringID`, embedded as the sponsor's
address). -/
structure LedgerEntry where
  sponsoringID : Option String
  data : LedgerEntryData
  deriving Repr, DecidableEq

/-- One ledger-entry change supplied by the change source: its entry kind
and the optional pre/post states. -/
structure Change where
  type : LedgerEntryType
  pre : Option LedgerEntry
  post : Option LedgerEntry
  deriving Repr, DecidableEq

/-- The kind of a ledger-entry data payload. -/
def LedgerEntryData.kind : LedgerEntryData → LedgerEntryType
  | .account _ => .account
  | .trustline _ => .trustline
  | .data _ => .data
  | .claimableBalance _ => .claimableBalance
  | .liquidityPool _ => .liquidityPool
  | .offer => .offer
  | .otherKind => .configSetting

/-- Well-formedness of a change, the invariant the change source
guarantees: at least one of pre/post present and every present side's
data matching the change's declared entry kind. -/
def Change.wf (c : Change) : Prop :=
  (c.pre.isSome ∨ c.post.isSome) ∧
    (∀ e, c.pre = some e → e.data.kind = c.type) ∧
    (∀ e, c.post = some e → e.data.kind = c.type)

instance (c : Change) : Decidable c.wf := by
  unfold Change.wf; infer_instance

/-! ## Claim atoms and operation results -/

/-- An order-book claim atom (`xdr.ClaimOfferAtom` / `ClaimOfferAtomV0`):
one matched trade against a counterparty offer. -/
structure ClaimOfferAtom where
  sellerId : String
  offerId : Int
  assetSold : Asset
  amountSold : Int
  assetBought : Asset
  amountBought : Int
  deriving Repr, DecidableEq

/-- A liquidity-pool claim atom (`xdr.ClaimLiquidityAtom`). -/
structure ClaimLiquidityAtom where
  liquidityPoolId : String
  assetSold : Asset
  amountSold : Int
  assetBought : Asset
  amountBought : Int
  deriving Repr, DecidableEq

/-- One matched trade leg of an offer-crossing result
(`xdr.ClaimAtom`). -/
inductive ClaimAtom where
  | orderBook (a : ClaimOfferAtom)
  | liquidityPool (a : ClaimLiquidityAtom)
  deriving Repr, DecidableEq

/-- `ClaimAtom.AmountSold`. -/
def ClaimAtom.amountSold : ClaimAtom → Int
  | .orderBook a => a.amountSold
  | .liquidityPool a => a.amountSold

/-- `ClaimAtom.AmountBought`. -/
def ClaimAtom.amountBought : ClaimAtom → Int
  | .orderBook a => a.amountBought
  | .liquidityPool a => a.amountBought

/-- `ClaimAtom.AssetSold`. -/
def ClaimAtom.assetSold : ClaimAtom → Asset
  | .orderBook a => a.assetSold
  | .liquidityPool a => a.assetSold

/-- `ClaimAtom.AssetBought`. -/
def ClaimAtom.assetBought : ClaimAtom → Asset
  | .orderBook a => a.assetBought
  | .liquidityPool a => a.assetBought

/-- `ClaimAtom.SellerId`; only read on order-book atoms. -/
def ClaimAtom.sellerId : ClaimAtom → String
  | .orderBook a => a.sellerId
  | .liquidityPool _ => ""

/-- `ClaimAtom.OfferId`; only read on order-book atoms. -/
def ClaimAtom.offerId : ClaimAtom → Int
  | .orderBook a => a.offerId
  | .liquidityPool _ => 0

/-- The success arm of a manage-offer result: the claimed offers (the
offer field of the result is not read by the effect engine). -/
structure ManageOfferSuccessResult where
  offersClaimed : List ClaimAtom
  deriving Repr, DecidableEq

/-- A manage-offer result: the success arm or a failure code. -/
inductive ManageOfferResult where
  | success (s : ManageOfferSuccessResult)
  | failed
  deriving Repr, DecidableEq

/-- The success arm of a path-payment strict-receive result: the claimed
offers and the actual amount sent (read through `SendAmount()`). -/
structure PathPaymentStrictReceiveSuccess where
  offers : List ClaimAtom
  sendAmount : Int
  deriving Repr, DecidableEq

/-- A path-payment strict-receive result. -/
inductive PathPaymentStrictReceiveResult where
  | success (s : PathPaymentStrictReceiveSuccess)
  | failed
  deriving Repr, DecidableEq

/-- `PathPaymentStrictReceiveResult.SendAmount`: the actual amount sent,
0 when the success arm is absent. -/
def PathPaymentStrictReceiveResult.sendAmount :
    PathPaymentStrictReceiveResult → Int
  | .success s => s.sendAmount
  | .failed => 0

/-- The success arm of a path-payment strict-send result: the claimed
offers and the actual amount received (read through `DestAmount()`). -/
structure PathPaymentStrictSendSuccess where
  offers : List ClaimAtom
  destAmount : Int
  deriving Repr, DecidableEq

/-- A path-payment strict-send result. -/
inductive PathPaymentStrictSendResult where
  | success (s : PathPaymentStrictSendSuccess)
  | failed
  deriving Repr, DecidableEq

/-- `PathPaymentStrictSendResult.DestAmount`: the actual amount received,
0 when the success arm is absent. -/
def PathPaymentStrictSendResult.destAmount :
    PathPaymentStrictSendResult → Int
  | .success s => s.destAmount
  | .failed => 0

/-- Operation type tags, restricted to the tags the embedded fragment
compares against (`xdr.OperationType`). -/
inductive OperationType where
  | payment
  | pathPaymentStrictReceive
  | pathPaymentStrictSend
  | manageSellOffer
  | manageBuyOffer
  | createPassiveSellOffer
  | allowTrust
  | setTrustLineFlags
  | otherType
  deriving Repr, DecidableEq

/-- The operation's result record (`xdr.OperationResultTr`), restricted to
the result arms the embedded generators read. -/
inductive OperationResultTr where
  | manageSellOffer (r : ManageOfferResult)
  | manageBuyOffer (r : ManageOfferResult)
  | createPassiveSellOffer (r : ManageOfferResult)
  | pathPaymentStrictReceive (r : PathPaymentStrictReceiveResult)
  | pathPaymentStrictSend (r : PathPaymentStrictSendResult)
  | other
  deriving Repr, DecidableEq

/-- The `Type` tag of a result record. -/
def OperationResultTr.type : OperationResultTr → OperationType
  | .manageSellOffer _ => .manageSellOffer
  | .manageBuyOffer _ => .manageBuyOffer
  | .createPassiveSellOffer _ => .createPassiveSellOffer
  | .pathPaymentStrictReceive _ => .pathPaymentStrictReceive
  | .pathPaymentStrictSend _ => .pathPaymentStrictSend
  | .other => .otherType

/-- The errors of the effect engine.  Panics on absent result arms in the
source (`Must*` accessors) are embedded as `missingResultArm`. -/
inductive EffErr where
  | unknownOperationType
  | missingResultArm
  | invalidSponsorshipEntryType
  | liquidityPoolBodyTypeMismatch
  | liquidityPoolChangeNotFound
  deriving Repr, DecidableEq

/-- `MustManageSellOfferResult`. -/
def OperationResultTr.mustManageSellOfferResult :
    OperationResultTr → Except EffErr ManageOfferResult
  | .manageSellOffer r => .ok r
  | _ => .error .missingResultArm

/-- `MustManageBuyOfferResult`. -/
def OperationResultTr.mustManageBuyOfferResult :
    OperationResultTr → Except EffErr ManageOfferResult
  | .manageBuyOffer r => .ok r
  | _ => .error .missingResultArm

/-- `MustCreatePassiveSellOfferResult`. -/
def OperationResultTr.mustCreatePassiveSellOfferResult :
    OperationResultTr → Except EffErr ManageOfferResult
  | .createPassiveSellOffer r => .ok r
  | _ => .error .missingResultArm

/-- `MustPathPaymentStrictReceiveResult`. -/
def OperationResultTr.mustPathPaymentStrictReceiveResult :
    OperationResultTr → Except EffErr PathPaymentStrictReceiveResult
  | .pathPaymentStrictReceive r => .ok r
  | _ => .error .missingResultArm

/-- `MustPathPaymentStrictSendResult`. -/
def OperationResultTr.mustPathPaymentStrictSendResult :
    OperationResultTr → Except EffErr PathPaymentStrictSendResult
  | .pathPaymentStrictSend r => .ok r
  | _ => .error .missingResultArm

/-- `ManageOfferResult.MustSuccess`. -/
def ManageOfferResult.mustSuccess :
    ManageOfferResult → Except EffErr ManageOfferSuccessResult
  | .success s => .ok s
  | .failed => .error .missingResultArm

/-- `PathPaymentStrictReceiveResult.MustSuccess`. -/
def PathPaymentStrictReceiveResult.mustSuccess :
    PathPaymentStrictReceiveResult →
      Except EffErr PathPaymentStrictReceiveSuccess
  | .success s => .ok s
  | .failed => .error .missingResultArm

/-- `PathPaymentStrictSendResult.MustSuccess`. -/
def PathPaymentStrictSendResult.mustSuccess :
    PathPaymentStrictSendResult → Except EffErr PathPaymentStrictSendSuccess
  | .success s => .ok s
  | .failed => .error .missingResultArm

/-! ## Operations and operation context -/

/-- `xdr.PaymentOp`. -/
structure PaymentOp where
  destination : MuxedAccount
  asset : Asset
  amount : Int
  deriving Repr, DecidableEq

/-- `xdr.PathPaymentStrictReceiveOp` (the intermediate path is not read by
the effect engine). -/
structure PathPaymentStrictReceiveOp where
  sendAsset : Asset
  sendMax : Int
  destination : MuxedAccount
  destAsset : Asset
  destAmount : Int
  deriving Repr, DecidableEq

/-- `xdr.PathPaymentStrictSendOp`. -/
structure PathPaymentStrictSendOp where
  sendAsset : Asset
  sendAmount : Int
  destination : MuxedAccount
  destAsset : Asset
  destMin : Int
  deriving Repr, DecidableEq

/-- `xdr.AllowTrustOp`: the trustor, the asset code (paired with the
operation source as issuer by `ToAsset`), its alphanum size, and the
authorization flag word. -/
structure AllowTrustOp where
  trustor : String
  assetCode : String
  assetType : AssetType
  authorize : Nat
  deriving Repr, DecidableEq

/-- `xdr.SetTrustLineFlagsOp`. -/
structure SetTrustLineFlagsOp where
  trustor : String
  asset : Asset
  setFlags : Nat
  clearFlags : Nat
  deriving Repr, DecidableEq

/-- The operation body, restricted to the operation kinds whose
generators the claims exercise; `unknownKind` embeds an operation kind
with no registered generator (the dispatcher's default branch).  The
manage-offer payloads are not read by the effect engine (only their
results are), so those constructors carry no payload. -/
inductive OperationBody where
  | payment (op : PaymentOp)
  | pathPaymentStrictReceive (op : PathPaymentStrictReceiveOp)
  | pathPaymentStrictSend (op : PathPaymentStrictSendOp)
  | manageSellOffer
  | manageBuyOffer
  | createPassiveSellOffer
  | allowTrust (op : AllowTrustOp)
  | setTrustLineFlags (op : SetTrustLineFlagsOp)
  | beginSponsoringFutureReserves
  | endSponsoringFutureReserves
  | revokeSponsorship
  | unknownKind
  deriving Repr, DecidableEq

/-- The immutable view of one operation inside its transaction
(`transactionOperationWrapper` plus the transaction data it reads): the
operation index, the owning transaction's index within the ledger and
success flag, the optional per-operation source account and the
transaction (envelope) source account, the operation body and result, the
operation's ledger-entry changes (`GetOperationChanges`), and the ledger
sequence / close time / network passphrase. -/
structure OperationContext where
  index : Nat
  txIndex : Nat
  txSuccessful : Bool
  txSourceAccount : MuxedAccount
  opSourceAccount : Option MuxedAccount
  body : OperationBody
  result : OperationResultTr
  changes : List Change
  ledgerSequence : Nat
  ledgerClosed : Int
  network : String
  deriving Repr, DecidableEq

/-- `SourceAccount()`: the operation's source account, inherited from the
transaction envelope when absent. -/
def OperationContext.sourceAccount (ctx : OperationContext) : MuxedAccount :=
  ctx.opSourceAccount.getD ctx.txSourceAccount

/-- Modelled from the spec: the composite operation identifier
(`toid.New(ledgerSeq, txIndex, opIndex+1).ToInt64()`; the `toid` package
is not among the provided sources and the spec treats the scheme as an
opaque identifier input).  It is the standard total-order id packing
ledger sequence, transaction index and operation index into disjoint bit
ranges (32/20/12 bits), here written as a sum since the inputs stay in
range. -/
def toid (ledgerSeq txIndex opIndex : Nat) : Int :=
  (ledgerSeq * 2 ^ 32 + txIndex * 2 ^ 12 + opIndex : Nat)

/-- `operation.ID()`. -/
def OperationContext.opID (ctx : OperationContext) : Int :=
  toid ctx.ledgerSequence ctx.txIndex (ctx.index + 1)

/-! ## Effects -/

/-- The effect type codes the embedded fragment emits (the full ~60-value
enumeration and its numeric codes / name table are not among the provided
sources; constructors stand for the enum values). -/
inductive EffectType where
  | accountCredited
  | accountDebited
  | trade
  | offerUpdated
  | offerRemoved
  | offerCreated
  | liquidityPoolTrade
  | liquidityPoolCreated
  | liquidityPoolRemoved
  | liquidityPoolRevoked
  | claimableBalanceCreated
  | trustlineFlagsUpdated
  | accountSponsorshipCreated
  | accountSponsorshipUpdated
  | accountSponsorshipRemoved
  | trustlineSponsorshipCreated
  | trustlineSponsorshipUpdated
  | trustlineSponsorshipRemoved
  | dataSponsorshipCreated
  | dataSponsorshipUpdated
  | dataSponsorshipRemoved
  | claimableBalanceSponsorshipCreated
  | claimableBalanceSponsorshipUpdated
  | claimableBalanceSponsorshipRemoved
  | signerSponsorshipCreated
  | signerSponsorshipUpdated
  | signerSponsorshipRemoved
  deriving Repr, DecidableEq

/-- One derived effect record (`EffectOutput`).  `effType` stands for the
numeric `Type` code and its `TypeString` name together.  The stamping
fields (`ledgerSequence`, `ledgerClosed`, `effectIndex`, `effectId`) hold
their Go zero values until the finalizer fills them. -/
structure EffectOutput where
  address : String
  addressMuxed : Option String
  operationID : Int
  effType : EffectType
  details : Details
  ledgerSequence : Nat
  ledgerClosed : Int
  effectIndex : Nat
  effectId : String

/-- `effectsWrapper.add`: a freshly appended, not yet stamped effect. -/
def mkEffect (ctx : OperationContext) (address : String)
    (addressMuxed : Option String) (t : EffectType) (d : Details) :
    EffectOutput :=
  { address := address
    addressMuxed := addressMuxed
    operationID := ctx.opID
    effType := t
    details := d
    ledgerSequence := 0
    ledgerClosed := 0
    effectIndex := 0
    effectId := "" }

/-- `effectsWrapper.addUnmuxed`. -/
def addUnmuxedE (ctx : OperationContext) (address : String)
    (t : EffectType) (d : Details) : EffectOutput :=
  mkEffect ctx address none t d

/-- `effectsWrapper.addMuxed`: the base account id becomes the address and
the muxed form, when present, the secondary address. -/
def addMuxedE (ctx : OperationContext) (address : MuxedAccount)
    (t : EffectType) (d : Details) : EffectOutput :=
  mkEffect ctx address.accountId address.muxedAddress t d

/-! ## Liquidity-pool delta lookup and details -/

/-- `liquidityPoolDelta`: signed deltas of the two reserves and the total
pool shares. -/
structure LiquidityPoolDelta where
  reserveA : Int
  reserveB : Int
  totalPoolShares : Int
  deriving Repr, DecidableEq

/-- `Body.ConstantProduct` (a direct dereference in the source, reached
only after the body-type check). -/
def LPBody.mustConstantProduct : LPBody → LPConstantProduct
  | .constantProduct cp => cp
  | .other _ =>
      { assetA := { type := .native, code := "", issuer := "" }
        assetB := { type := .native, code := "", issuer := "" }
        fee := 0, reserveA := 0, reserveB := 0
        totalPoolShares := 0, poolSharesTrustLineCount := 0 }

/-- `liquidityPoolDetails`: the pool snapshot detail object. -/
def liquidityPoolDetailsV (lp : LiquidityPoolEntry) : Val :=
  let cp := lp.body.mustConstantProduct
  .obj [("id", .str lp.liquidityPoolId),
        ("fee_bp", .int cp.fee),
        ("type", .str "constant_product"),
        ("total_trustlines", .str (String.mk (intDigits cp.poolSharesTrustLineCount))),
        ("total_shares", .str (amountString cp.totalPoolShares)),
        ("reserves", .list
          [.obj [("asset", .str cp.assetA.stringCanonical),
                 ("amount", .str (amountString cp.reserveA))],
           .obj [("asset", .str cp.assetB.stringCanonical),
                 ("amount", .str (amountString cp.reserveB))]])]

/-- Whether a pool entry fails the optional target-pool-id filter. -/
def poolIdMismatch (lpID : Option String) (lp : LiquidityPoolEntry) : Bool :=
  match lpID with
  | some i => lp.liquidityPoolId != i
  | none => false

/-- `getLiquidityPoolAndProductDelta`: scan the operation's changes for a
constant-product pool entry (optionally filtered to a target id) and
return the entry together with the pre/post reserve and share deltas,
treating an absent side as all-zero.  A non-constant-product body is a
`liquidityPoolBodyTypeMismatch` error; no matching change is the
`liquidityPoolChangeNotFound` sentinel. -/
def getLiquidityPoolAndProductDelta (changes : List Change)
    (lpID : Option String) :
    Except EffErr (Option LiquidityPoolEntry × LiquidityPoolDelta) :=
  match changes with
  | [] => .error .liquidityPoolChangeNotFound
  | c :: rest =>
    if c.type ≠ LedgerEntryType.liquidityPool then
      getLiquidityPoolAndProductDelta rest lpID
    else
      match c.pre, c.post with
      | none, none => .ok (none, ⟨0, 0, 0⟩)
      | some pre, none =>
        let preLP := pre.data.mustLiquidityPool
        if poolIdMismatch lpID preLP then
          getLiquidityPoolAndProductDelta rest lpID
        else
          match preLP.body with
          | .constantProduct cp =>
              .ok (some preLP, ⟨-cp.reserveA, -cp.reserveB, -cp.totalPoolShares⟩)
          | .other _ => .error .liquidityPoolBodyTypeMismatch
      | none, some post =>
        let postLP := post.data.mustLiquidityPool
        if poolIdMismatch lpID postLP then
          getLiquidityPoolAndProductDelta rest lpID
        else
          match postLP.body with
          | .constantProduct cp =>
              .ok (some postLP, ⟨cp.reserveA, cp.reserveB, cp.totalPoolShares⟩)
          | .other _ => .error .liquidityPoolBodyTypeMismatch
      | some pre, some post =>
        let preLP := pre.data.mustLiquidityPool
        if poolIdMismatch lpID preLP then
          getLiquidityPoolAndProductDelta rest lpID
        else
          match preLP.body with
          | .other _ => .error .liquidityPoolBodyTypeMismatch
          | .constantProduct cpPre =>
            let postLP := post.data.mustLiquidityPool
            if poolIdMismatch lpID postLP then
              getLiquidityPoolAndProductDelta rest lpID
            else
              match postLP.body with
              | .other _ => .error .liquidityPoolBodyTypeMismatch
              | .constantProduct cpPost =>
                  .ok (some postLP,
                    ⟨cpPost.reserveA - cpPre.reserveA,
                     cpPost.reserveB - cpPre.reserveB,
                     cpPost.totalPoolShares - cpPre.totalPoolShares⟩)

/-! ## Trade generators -/

/-- `tradeDetails`: the buyer-side and seller-side detail sets of one
claimed offer, each mirrored from the opposite party's perspective. -/
def tradeDetails (buyer : MuxedAccount) (seller : String)
    (claim : ClaimAtom) : Details × Details :=
  let bd : Details :=
    [("offer_id", .int claim.offerId),
     ("seller", .str seller),
     ("bought_amount", .str (amountString claim.amountSold)),
     ("sold_amount", .str (amountString claim.amountBought))]
  let bd := addAssetDetails bd claim.assetSold "bought_"
  let bd := addAssetDetails bd claim.assetBought "sold_"
  let sd : Details :=
    [("offer_id", .int claim.offerId),
     ("bought_amount", .str (amountString claim.amountBought)),
     ("sold_amount", .str (amountString claim.amountSold))]
  let sd := addAccountAndMuxedAccountDetails sd buyer "seller"
  let sd := addAssetDetails sd claim.assetBought "bought_"
  let sd := addAssetDetails sd claim.assetSold "sold_"
  (bd, sd)

/-- The fixed kind order of the per-claim trade effects. -/
def tradeEffectTypes : List EffectType :=
  [.trade, .offerUpdated, .offerRemoved, .offerCreated]

/-- `addClaimTradeEffects`: for one claim against a counterparty offer,
emit for each kind in `tradeEffectTypes` first a buyer-attributed then a
seller-attributed effect, skipping `offerCreated` in path-payment mode. -/
def addClaimTradeEffects (ctx : OperationContext) (buyer : MuxedAccount)
    (claim : ClaimAtom) (isPathPayment : Bool) : List EffectOutput :=
  let seller := claim.sellerId
  let p := tradeDetails buyer seller claim
  (tradeEffectTypes.enum.map (fun ne =>
    if ne.1 == 3 && isPathPayment then []
    else
      [addMuxedE ctx buyer ne.2 p.1,
       addUnmuxedE ctx seller ne.2 p.2])).flatten

/-- `addClaimLiquidityPoolTradeEffect`: one `LiquidityPoolTrade` effect
for a claim against a liquidity pool. -/
def addClaimLiquidityPoolTradeEffect (ctx : OperationContext)
    (claim : ClaimLiquidityAtom) : Except EffErr (List EffectOutput) := do
  let r ← getLiquidityPoolAndProductDelta ctx.changes
    (some claim.liquidityPoolId)
  let lp := r.1.getD default
  let details : Details :=
    [("liquidity_pool", liquidityPoolDetailsV lp),
     ("sold", .obj [("asset", .str claim.assetSold.stringCanonical),
                    ("amount", .str (amountString claim.amountSold))]),
     ("bought", .obj [("asset", .str claim.assetBought.stringCanonical),
                      ("amount", .str (amountString claim.amountBought))])]
  .ok [addMuxedE ctx ctx.sourceAccount .liquidityPoolTrade details]

/-- `addIngestTradeEffects`: the generic trade pass over a result's
claimed offers, skipping claims whose sold and bought amounts are both
zero. -/
def addIngestTradeEffects (ctx : OperationContext) (buyer : MuxedAccount)
    (claims : List ClaimAtom) (isPathPayment : Bool) :
    Except EffErr (List EffectOutput) :=
  match claims with
  | [] => .ok []
  | claim :: rest =>
    if claim.amountSold == 0 && claim.amountBought == 0 then
      addIngestTradeEffects ctx buyer rest isPathPayment
    else
      match claim with
      | .liquidityPool lpClaim => do
          let es ← addClaimLiquidityPoolTradeEffect ctx lpClaim
          let esRest ← addIngestTradeEffects ctx buyer rest isPathPayment
          .ok (es ++ esRest)
      | .orderBook _ => do
          let esRest ← addIngestTradeEffects ctx buyer rest isPathPayment
          .ok (addClaimTradeEffects ctx buyer claim isPathPayment ++ esRest)

/-- `addManageSellOfferEffects`. -/
def addManageSellOfferEffects (ctx : OperationContext) :
    Except EffErr (List EffectOutput) := do
  let r ← ctx.result.mustManageSellOfferResult
  let s ← r.mustSuccess
  addIngestTradeEffects ctx ctx.sourceAccount s.offersClaimed false

/-- `addManageBuyOfferEffects`. -/
def addManageBuyOfferEffects (ctx : OperationContext) :
    Except EffErr (List EffectOutput) := do
  let r ← ctx.result.mustManageBuyOfferResult
  let s ← r.mustSuccess
  addIngestTradeEffects ctx ctx.sourceAccount s.offersClaimed false

/-- `addCreatePassiveSellOfferEffect`: reads the claims from the
`ManageSellOffer` result arm when the result's tag says so (known
upstream bug-compatibility), otherwise from the dedicated arm. -/
def addCreatePassiveSellOfferEffect (ctx : OperationContext) :
    Except EffErr (List EffectOutput) := do
  let result := ctx.result
  let claims ←
    if result.type == OperationType.manageSellOffer then do
      let r ← result.mustManageSellOfferResult
      let s ← r.mustSuccess
      pure s.offersClaimed
    else do
      let r ← result.mustCreatePassiveSellOfferResult
      let s ← r.mustSuccess
      pure s.offersClaimed
  addIngestTradeEffects ctx ctx.sourceAccount claims false

/-! ## Balance-transfer generators -/

/-- `addPaymentEffects`. -/
def addPaymentEffects (ctx : OperationContext) (op : PaymentOp) :
    List EffectOutput :=
  let details :=
    addAssetDetails [("amount", .str (amountString op.amount))] op.asset ""
  [addMuxedE ctx op.destination .accountCredited details,
   addMuxedE ctx ctx.sourceAccount .accountDebited details]

/-- `pathPaymentStrictReceiveEffects`: destination credited with the fixed
requested receive amount, source debited with the actual amount sent from
the result, then the generic trade pass over the result's claimed offers.
The source passes `false` for the trade pass's path-payment mode. -/
def pathPaymentStrictReceiveEffects (ctx : OperationContext)
    (op : PathPaymentStrictReceiveOp) : Except EffErr (List EffectOutput) := do
  let r ← ctx.result.mustPathPaymentStrictReceiveResult
  let resultSuccess ← r.mustSuccess
  let source := ctx.sourceAccount
  let details :=
    addAssetDetails [("amount", .str (amountString op.destAmount))]
      op.destAsset ""
  let e1 := addMuxedE ctx op.destination .accountCredited details
  let details2 :=
    addAssetDetails [("amount", .str (amountString r.sendAmount))]
      op.sendAsset ""
  let e2 := addMuxedE ctx source .accountDebited details2
  let trades ← addIngestTradeEffects ctx source resultSuccess.offers false
  .ok (e1 :: e2 :: trades)

/-- `addPathPaymentStrictSendEffects`: destination credited with the
actual amount received from the result, source debited with the fixed
sent amount, then the trade pass in path-payment mode. -/
def addPathPaymentStrictSendEffects (ctx : OperationContext)
    (op : PathPaymentStrictSendOp) : Except EffErr (List EffectOutput) := do
  let r ← ctx.result.mustPathPaymentStrictSendResult
  let resultSuccess ← r.mustSuccess
  let source := ctx.sourceAccount
  let details :=
    addAssetDetails [("amount", .str (amountString r.destAmount))]
      op.destAsset ""
  let e1 := addMuxedE ctx op.destination .accountCredited details
  let details2 :=
    addAssetDetails [("amount", .str (amountString op.sendAmount))]
      op.sendAsset ""
  let e2 := addMuxedE ctx source .accountDebited details2
  let trades ← addIngestTradeEffects ctx source resultSuccess.offers true
  .ok (e1 :: e2 :: trades)

/-! ## Trustline flag generators and the revocation sweep -/

/-- `TrustLineFlags.IsAuthorized`: bit test on the flag word. -/
def tlfIsAuthorized (f : Nat) : Bool := (f &&& 1) != 0

/-- `TrustLineFlags.IsAuthorizedToMaintainLiabilitiesFlag`. -/
def tlfIsAuthorizedToMaintainLiabilities (f : Nat) : Bool := (f &&& 2) != 0

/-- `TrustLineFlags.IsClawbackEnabledFlag`. -/
def tlfIsClawbackEnabled (f : Nat) : Bool := (f &&& 4) != 0

/-- `setTrustLineFlagDetails`: store a boolean detail for every flag
present in the given flag word (the misspelled
`authorized_to_maintain_liabilites` key is the source's). -/
def setTrustLineFlagDetails (d : Details) (flags : Nat) (setValue : Bool) :
    Details :=
  let d := if tlfIsAuthorized flags then
    dset d "authorized_flag" (.bool setValue) else d
  let d := if tlfIsAuthorizedToMaintainLiabilities flags then
    dset d "authorized_to_maintain_liabilites" (.bool setValue) else d
  if tlfIsClawbackEnabled flags then
    dset d "clawback_enabled_flag" (.bool setValue) else d

/-- `addTrustLineFlagsEffect`: one `TrustlineFlagsUpdated` effect carrying
the set flags as `true` and the cleared flags as `false`, emitted whenever
either flag word was supplied. -/
def addTrustLineFlagsEffect (ctx : OperationContext)
    (account : MuxedAccount) (trustor : String) (asset : Asset)
    (setFlags clearFlags : Option Nat) : List EffectOutput :=
  let d0 := addAssetDetails [("trustor", .str trustor)] asset ""
  let d1 := match setFlags with
    | some f => setTrustLineFlagDetails d0 f true
    | none => d0
  let d2 := match clearFlags with
    | some f => setTrustLineFlagDetails d1 f false
    | none => d1
  if setFlags.isSome || clearFlags.isSome then
    [addMuxedE ctx account .trustlineFlagsUpdated d2]
  else []

/-- `op.Asset.ToAsset(issuer)` for an allow-trust operation: pair the
asset code with the given issuer. -/
def AllowTrustOp.toAsset (op : AllowTrustOp) (issuer : String) : Asset :=
  { type := op.assetType, code := op.assetCode, issuer := issuer }

/-- The ordering the revocation sweep sorts created claimable balances
by: the embedding of `sort.Sort` with `Less` the canonical asset
ordering. -/
def cbLE (a b : ClaimableBalanceEntry) : Prop := ¬ assetLT b.asset a.asset

instance : DecidableRel cbLE := fun a b => by
  unfold cbLE; infer_instance

/-- The sort key realizing the canonical asset ordering as a lexicographic
linear order. -/
def assetKey (a : Asset) : Lex (Nat × Lex (String × String)) :=
  toLex (a.type.rank, toLex (a.code, a.issuer))

instance : IsTotal ClaimableBalanceEntry cbLE := ⟨by
  have key_iff : ∀ x y : Asset, assetLT x y ↔ assetKey x < assetKey y := by
    intro x y
    simp [assetKey, assetLT, Prod.Lex.lt_iff]
  intro a b
  by_cases h : assetLT b.asset a.asset
  · right
    intro h2
    exact lt_asymm ((key_iff _ _).mp h) ((key_iff _ _).mp h2)
  · exact Or.inl h⟩

instance : IsTrans ClaimableBalanceEntry cbLE := ⟨by
  have key_iff : ∀ x y : Asset, assetLT x y ↔ assetKey x < assetKey y := by
    intro x y
    simp [assetKey, assetLT, Prod.Lex.lt_iff]
  intro a b c hab hbc hca
  rw [cbLE, key_iff, not_lt] at hab hbc
  rw [key_iff] at hca
  exact absurd (le_trans hab hbc) (not_le.mpr hca)⟩

/-- Modelled from the spec: `addClaimableBalanceEntryCreatedEffects`
(definition not among the provided sources; only its call site is).
Emits one `ClaimableBalanceCreated`-equivalent effect for the balance. -/
def addClaimableBalanceEntryCreatedEffects (ctx : OperationContext)
    (source : MuxedAccount) (cb : ClaimableBalanceEntry) :
    List EffectOutput :=
  [addMuxedE ctx source .claimableBalanceCreated
    [("balance_id", .str cb.balanceId),
     ("asset", .str cb.asset.stringCanonical),
     ("amount", .str (amountString cb.amount))]]

/-- Go map assignment on a string-to-string map. -/
def smapSet (m : List (String × String)) (k v : String) :
    List (String × String) :=
  if m.any (fun kv => kv.1 == k) then
    m.map (fun kv => if kv.1 == k then (k, v) else kv)
  else
    m ++ [(k, v)]

/-- The claimable-balance entries newly created by the operation, in
change order. -/
def createdClaimableBalances (changes : List Change) :
    List ClaimableBalanceEntry :=
  (changes.filter (fun c =>
    c.type == LedgerEntryType.claimableBalance &&
      c.pre.isNone && c.post.isSome)).map
    (fun c => ((c.post.getD ⟨none, .offer⟩).data).mustClaimableBalance)

/-- The `assetToCBID` map of the revocation sweep: canonical asset string
of each newly created claimable balance to its balance id, in change
order with map-overwrite semantics. -/
def assetToCBID (changes : List Change) : List (String × String) :=
  (createdClaimableBalances changes).foldl
    (fun m cb => smapSet m cb.asset.stringCanonical cb.balanceId) []

/-- The `reservesRevoked` list of the revocation sweep: for each of the
pool's two assets, in order, the negated reserve delta paired with the
matching created claimable balance's id — pool assets with no matching
balance are dropped. -/
def reservesRevoked (cp : LPConstantProduct) (delta : LiquidityPoolDelta)
    (m : List (String × String)) : List Val :=
  ([(cp.assetA.stringCanonical, amountString (-delta.reserveA)),
    (cp.assetB.stringCanonical, amountString (-delta.reserveB))]).filterMap
    (fun aa => match List.lookup aa.1 m with
      | some cbID => some (Val.obj
          [("asset", .str aa.1),
           ("amount", .str aa.2),
           ("claimable_balance_id", .str cbID)])
      | none => none)

/-- `addLiquidityPoolRevokedEffect` (the liquidity-pool revocation
sweep): no-op when no pool delta is found; otherwise collects the
claimable balances newly created by the operation (no-op when there are
none), sorts them by canonical asset ordering, emits one created effect
per balance and then a single `LiquidityPoolRevoked` effect whose
`reserves_revoked` detail lists the negated reserve deltas of the pool
assets that have a matching created balance. -/
def addLiquidityPoolRevokedEffect (ctx : OperationContext) :
    Except EffErr (List EffectOutput) :=
  let source := ctx.sourceAccount
  match getLiquidityPoolAndProductDelta ctx.changes none with
  | .error .liquidityPoolChangeNotFound => .ok []
  | .error e => .error e
  | .ok r =>
    let lp := r.1.getD default
    let delta := r.2
    let cbs := createdClaimableBalances ctx.changes
    if (assetToCBID ctx.changes).isEmpty then .ok []
    else
      let sorted := List.insertionSort cbLE cbs
      let cbEffects :=
        (sorted.map (addClaimableBalanceEntryCreatedEffects ctx source)).flatten
      let cp := lp.body.mustConstantProduct
      let details : Details :=
        [("liquidity_pool", liquidityPoolDetailsV lp),
         ("reserves_revoked",
          .list (reservesRevoked cp delta (assetToCBID ctx.changes))),
         ("shares_revoked", .str (amountString (-delta.totalPoolShares)))]
      .ok (cbEffects ++ [addMuxedE ctx source .liquidityPoolRevoked details])

/-- `addAllowTrustEffects`: the legacy `TrustlineFlagsUpdated` effect, a
forward-compatibility `TrustlineFlagsUpdated` effect via
`addTrustLineFlagsEffect`, then the liquidity-pool revocation sweep. -/
def addAllowTrustEffects (ctx : OperationContext) (op : AllowTrustOp) :
    Except EffErr (List EffectOutput) := do
  let source := ctx.sourceAccount
  let asset := op.toAsset source.accountId
  let details := addAssetDetails [("trustor", .str op.trustor)] asset ""
  let legacy := addMuxedE ctx source .trustlineFlagsUpdated details
  let flagsEffs :=
    if tlfIsAuthorized op.authorize then
      addTrustLineFlagsEffect ctx source op.trustor asset (some 1) none
    else if tlfIsAuthorizedToMaintainLiabilities op.authorize then
      addTrustLineFlagsEffect ctx source op.trustor asset (some 2) none
    else
      addTrustLineFlagsEffect ctx source op.trustor asset none (some 3)
  let rev ← addLiquidityPoolRevokedEffect ctx
  .ok (legacy :: flagsEffs ++ rev)

/-- `addSetTrustLineFlagsEffects`: the flag-change effect for the
operation's set/clear flag words, then the revocation sweep. -/
def addSetTrustLineFlagsEffects (ctx : OperationContext)
    (op : SetTrustLineFlagsOp) : Except EffErr (List EffectOutput) := do
  let source := ctx.sourceAccount
  let es := addTrustLineFlagsEffect ctx source op.trustor op.asset
    (some op.setFlags) (some op.clearFlags)
  let rev ← addLiquidityPoolRevokedEffect ctx
  .ok (es ++ rev)

/-! ## Cross-cutting sweeps -/

/-- `sponsoringEffectsTable`: the created/updated/removed sponsorship
effect triad per entry kind; offers (and every other kind) intentionally
have no entry. -/
def sponsoringEffectsTable (t : LedgerEntryType) :
    Option (EffectType × EffectType × EffectType) :=
  match t with
  | .account => some (.accountSponsorshipCreated,
      .accountSponsorshipUpdated, .accountSponsorshipRemoved)
  | .trustline => some (.trustlineSponsorshipCreated,
      .trustlineSponsorshipUpdated, .trustlineSponsorshipRemoved)
  | .data => some (.dataSponsorshipCreated,
      .dataSponsorshipUpdated, .dataSponsorshipRemoved)
  | .claimableBalance => some (.claimableBalanceSponsorshipCreated,
      .claimableBalanceSponsorshipUpdated,
      .claimableBalanceSponsorshipRemoved)
  | _ => none

/-- `addLedgerEntrySponsorshipEffects` (the entry-sponsorship sweep for
one change): the three-way created/removed/updated rule on the pre/post
sponsoring ids of a change whose entry kind has a table entry. -/
def addLedgerEntrySponsorshipEffects (ctx : OperationContext)
    (change : Change) : Except EffErr (List EffectOutput) :=
  match sponsoringEffectsTable change.type with
  | none => .ok []
  | some tbl =>
    let act : Option (EffectType × Details) :=
      match change.pre.bind (·.sponsoringID),
            change.post.bind (·.sponsoringID) with
      | none, some s => some (tbl.1, [("sponsor", .str s)])
      | some s, none => some (tbl.2.2, [("former_sponsor", .str s)])
      | some s1, some s2 =>
          if s1 = s2 then none
          else some (tbl.2.1,
            [("new_sponsor", .str s2), ("former_sponsor", .str s1)])
      | none, none => none
    match act with
    | none => .ok []
    | some td =>
      let data := match change.post with
        | some e => e.data
        | none => (change.pre.getD ⟨none, .offer⟩).data
      match change.type with
      | .account =>
          .ok [addUnmuxedE ctx data.mustAccount.accountId td.1 td.2]
      | .trustline =>
          let tl := data.mustTrustLine
          let d := match tl.asset with
            | .poolShare pid =>
                dset (dset td.2 "asset_type" (.str "liquidity_pool"))
                  "liquidity_pool_id" (.str pid)
            | .asset a => dset td.2 "asset" (.str a.stringCanonical)
          .ok [addUnmuxedE ctx tl.accountId td.1 d]
      | .data =>
          .ok [addMuxedE ctx ctx.sourceAccount td.1
            (dset td.2 "data_name" (.str data.mustData.dataName))]
      | .claimableBalance =>
          .ok [addMuxedE ctx ctx.sourceAccount td.1
            (dset td.2 "balance_id" (.str data.mustClaimableBalance.balanceId))]
      | _ => .error .invalidSponsorshipEntryType

/-- `addSignerSponsorshipEffects` (the signer-sponsorship sweep for one
change): for account changes, union the pre/post signer key sets, sort
them lexicographically, and apply the three-way rule per signer. -/
def addSignerSponsorshipEffects (ctx : OperationContext) (change : Change) :
    List EffectOutput :=
  if change.type ≠ LedgerEntryType.account then []
  else
    let preSigners := match change.pre with
      | some e => e.data.mustAccount.signerSponsors
      | none => []
    let postSigners := match change.post with
      | some e => e.data.mustAccount.signerSponsors
      | none => []
    let preKeys := preSigners.map Prod.fst
    let postKeys := postSigners.map Prod.fst
    let all := preKeys ++ postKeys.filter (fun s => ¬ preKeys.contains s)
    let allSorted := List.insertionSort (fun a b : String => a ≤ b) all
    (allSorted.map (fun signer =>
      match List.lookup signer preSigners, List.lookup signer postSigners with
      | none, none => []
      | none, some post =>
          [addUnmuxedE ctx
            ((change.post.getD ⟨none, .offer⟩).data).mustAccount.accountId
            .signerSponsorshipCreated
            [("sponsor", .str post), ("signer", .str signer)]]
      | some pre, none =>
          [addUnmuxedE ctx
            ((change.pre.getD ⟨none, .offer⟩).data).mustAccount.accountId
            .signerSponsorshipRemoved
            [("former_sponsor", .str pre), ("signer", .str signer)]]
      | some pre, some post =>
          if pre = post then []
          else
            [addUnmuxedE ctx
              ((change.post.getD ⟨none, .offer⟩).data).mustAccount.accountId
              .signerSponsorshipUpdated
              [("former_sponsor", .str pre), ("new_sponsor", .str post),
               ("signer", .str signer)]])).flatten

/-- `addLedgerEntryLiquidityPoolEffects` (the liquidity-pool lifecycle
sweep for one change): `LiquidityPoolCreated` on creation,
`LiquidityPoolRemoved` on removal. -/
def addLedgerEntryLiquidityPoolEffects (ctx : OperationContext)
    (change : Change) : List EffectOutput :=
  if change.type ≠ LedgerEntryType.liquidityPool then []
  else
    match change.pre, change.post with
    | none, some post =>
        [addMuxedE ctx ctx.sourceAccount .liquidityPoolCreated
          [("liquidity_pool",
            liquidityPoolDetailsV post.data.mustLiquidityPool)]]
    | some pre, none =>
        [addMuxedE ctx ctx.sourceAccount .liquidityPoolRemoved
          [("liquidity_pool_id",
            .str pre.data.mustLiquidityPool.liquidityPoolId)]]
    | _, _ => []

/-! ## Dispatcher and finalizer -/

/-- The dispatch-by-kind step of `effects`: exactly one generator per
operation kind; sponsorship operations produce no direct effects; a kind
with no registered generator is an `unknownOperationType` error. -/
def dispatchGenerator (ctx : OperationContext) :
    Except EffErr (List EffectOutput) :=
  match ctx.body with
  | .payment op => .ok (addPaymentEffects ctx op)
  | .pathPaymentStrictReceive op => pathPaymentStrictReceiveEffects ctx op
  | .pathPaymentStrictSend op => addPathPaymentStrictSendEffects ctx op
  | .manageSellOffer => addManageSellOfferEffects ctx
  | .manageBuyOffer => addManageBuyOfferEffects ctx
  | .createPassiveSellOffer => addCreatePassiveSellOfferEffect ctx
  | .allowTrust op => addAllowTrustEffects ctx op
  | .setTrustLineFlags op => addSetTrustLineFlagsEffects ctx op
  | .beginSponsoringFutureReserves => .ok []
  | .endSponsoringFutureReserves => .ok []
  | .revokeSponsorship => .ok []
  | .unknownKind => .error .unknownOperationType

/-- The per-change sponsorship loop of `effects`: entry-sponsorship
effects then signer-sponsorship effects for each change in order. -/
def sponsorshipSweep (ctx : OperationContext) :
    List Change → Except EffErr (List EffectOutput)
  | [] => .ok []
  | c :: rest => do
    let e1 ← addLedgerEntrySponsorshipEffects ctx c
    let e2 := addSignerSponsorshipEffects ctx c
    let esRest ← sponsorshipSweep ctx rest
    .ok (e1 ++ e2 ++ esRest)

/-- `fmt.Sprintf("%d-%d", operationID, effectIndex)`. -/
def effectIdString (opID : Int) (i : Nat) : String :=
  String.mk (intDigits opID ++ Char.ofNat 45 :: natDigits i)

/-- The finalizer loop of `effects`: stamp each accumulated effect with
the ledger close time, ledger sequence, its zero-based index and the
composite effect id. -/
def stampFrom (ctx : OperationContext) : Nat → List EffectOutput →
    List EffectOutput
  | _, [] => []
  | i, e :: rest =>
    { e with
      ledgerClosed := ctx.ledgerClosed
      ledgerSequence := ctx.ledgerSequence
      effectIndex := i
      effectId := effectIdString e.operationID i } :: stampFrom ctx (i + 1) rest

/-- `transactionOperationWrapper.effects`: empty result for an
unsuccessful transaction, otherwise generator dispatch, the sponsorship
and signer sweeps, the liquidity-pool lifecycle sweep, and stamping. -/
def effects (ctx : OperationContext) : Except EffErr (List EffectOutput) :=
  if ¬ ctx.txSuccessful then .ok []
  else do
    let gen ← dispatchGenerator ctx
    let spons ← sponsorshipSweep ctx ctx.changes
    let lps := (ctx.changes.map (addLedgerEntryLiquidityPoolEffects ctx)).flatten
    .ok (stampFrom ctx 0 (gen ++ spons ++ lps))

/-! ## Spec-side statement vocabulary

Definitions in this block are stated from the specification's wording (not
translated from the source); the claim theorems compare the source-derived
functions above against them. -/

/-- Whether a claim atom is a liquidity-pool claim (`claim.Type`). -/
def ClaimAtom.isPool : ClaimAtom → Bool
  | .orderBook _ => false
  | .liquidityPool _ => true

/-- Stated from the spec: the fixed effect-kind order of the per-claim
trade effects, with `OfferCreated` suppressed in path-payment mode. -/
def specTradeKindOrder (isPathPayment : Bool) : List EffectType :=
  if isPathPayment then [.trade, .offerUpdated, .offerRemoved]
  else [.trade, .offerUpdated, .offerRemoved, .offerCreated]

/-- Stated from the spec: the per-claim trade effects of one non-pool
claim: for each kind in the fixed order, one buyer-attributed then one
seller-attributed effect with mirrored details. -/
def specClaimTradeEffects (ctx : OperationContext) (buyer : MuxedAccount)
    (claim : ClaimAtom) (isPathPayment : Bool) : List EffectOutput :=
  (specTradeKindOrder isPathPayment).flatMap (fun k =>
    [addMuxedE ctx buyer k (tradeDetails buyer claim.sellerId claim).1,
     addUnmuxedE ctx claim.sellerId k (tradeDetails buyer claim.sellerId claim).2])

/-- Stated from the spec: the value a flag key carries in a
`TrustlineFlagsUpdated` effect: `false` when the flag bit is cleared,
otherwise `true` when set, otherwise absent. -/
def specFlagValue (setFlags clearFlags bit : Nat) : Option Val :=
  if (clearFlags &&& bit) != 0 then some (.bool false)
  else if (setFlags &&& bit) != 0 then some (.bool true)
  else none

/-! ## Input equivalence for the determinism claim

Two contexts are equivalent when they are identical except that the
per-signer sponsor maps of account entries (which the change source
materializes from unordered data) are listed in a possibly different
order. -/

/-- The association list represents a map: pairwise distinct keys. -/
def signerListWF (l : List (String × String)) : Prop :=
  (l.map Prod.fst).Nodup

/-- Account entries equal up to reordering of the signer-sponsor map. -/
def AccountEntry.equiv (a b : AccountEntry) : Prop :=
  a.accountId = b.accountId ∧ a.signerSponsors.Perm b.signerSponsors ∧
    signerListWF a.signerSponsors

/-- Entry payloads equal up to account-entry equivalence. -/
def LedgerEntryData.equiv (d e : LedgerEntryData) : Prop :=
  match d, e with
  | .account a, .account b => AccountEntry.equiv a b
  | d, e => d = e

/-- Entries equal up to payload equivalence. -/
def LedgerEntry.equiv (x y : LedgerEntry) : Prop :=
  x.sponsoringID = y.sponsoringID ∧ x.data.equiv y.data

/-- Lift a relation to `Option`. -/
def optEquiv (r : α → α → Prop) : Option α → Option α → Prop
  | none, none => True
  | some a, some b => r a b
  | _, _ => False

/-- Changes equal up to entry equivalence. -/
def Change.equiv (c d : Change) : Prop :=
  c.type = d.type ∧ optEquiv LedgerEntry.equiv c.pre d.pre ∧
    optEquiv LedgerEntry.equiv c.post d.post

/-- Operation contexts equal up to reordering of signer-sponsor maps in
their changes. -/
def OperationContext.equiv (x y : OperationContext) : Prop :=
  x.index = y.index ∧ x.txIndex = y.txIndex ∧
    x.txSuccessful = y.txSuccessful ∧
    x.txSourceAccount = y.txSourceAccount ∧
    x.opSourceAccount = y.opSourceAccount ∧
    x.body = y.body ∧ x.result = y.result ∧
    List.Forall₂ Change.equiv x.changes y.changes ∧
    x.ledgerSequence = y.ledgerSequence ∧ x.ledgerClosed = y.ledgerClosed ∧
    x.network = y.network

/-! ## Observation functions for the congruence development

These definitions re-express the sweeps as functions of the exact
projections of a change they read, so that invariance under reordering of
the signer-sponsor maps can be handled argument by argument. -/

/-- Replace a context's change list, keeping every other field. -/
def OperationContext.setChanges (ctx : OperationContext) (cs : List Change) :
    OperationContext :=
  { ctx with changes := cs }

/-- The entry payload the entry-sponsorship sweep reads: the post entry
when present, else the pre entry. -/
def changeData (c : Change) : LedgerEntryData :=
  match c.post with
  | some e => e.data
  | none => (c.pre.getD ⟨none, .offer⟩).data

/-- The signer-sponsor map of an optional account entry. -/
def optSigners : Option LedgerEntry → List (String × String)
  | some e => e.data.mustAccount.signerSponsors
  | none => []

/-- The account id of an optional entry (default entry when absent). -/
def optAccountId (p : Option LedgerEntry) : String :=
  ((p.getD ⟨none, .offer⟩).data).mustAccount.accountId

/-- The pool payload of an optional entry. -/
def optLP : Option LedgerEntry → Option LiquidityPoolEntry
  | some e => some e.data.mustLiquidityPool
  | none => none

/-- `addLedgerEntrySponsorshipEffects` as a function of the projections it
reads. -/
def addLESabs (ctx : OperationContext) (t : LedgerEntryType)
    (preSp postSp : Option String) (acctId : String) (tl : TrustLineEntry)
    (de : DataEntry) (cb : ClaimableBalanceEntry) :
    Except EffErr (List EffectOutput) :=
  match sponsoringEffectsTable t with
  | none => .ok []
  | some tbl =>
    let act : Option (EffectType × Details) :=
      match preSp, postSp with
      | none, some s => some (tbl.1, [("sponsor", .str s)])
      | some s, none => some (tbl.2.2, [("former_sponsor", .str s)])
      | some s1, some s2 =>
          if s1 = s2 then none
          else some (tbl.2.1,
            [("new_sponsor", .str s2), ("former_sponsor", .str s1)])
      | none, none => none
    match act with
    | none => .ok []
    | some td =>
      match t with
      | .account => .ok [addUnmuxedE ctx acctId td.1 td.2]
      | .trustline =>
          let d := match tl.asset with
            | .poolShare pid =>
                dset (dset td.2 "asset_type" (.str "liquidity_pool"))
                  "liquidity_pool_id" (.str pid)
            | .asset a => dset td.2 "asset" (.str a.stringCanonical)
          .ok [addUnmuxedE ctx tl.accountId td.1 d]
      | .data =>
          .ok [addMuxedE ctx ctx.sourceAccount td.1
            (dset td.2 "data_name" (.str de.dataName))]
      | .claimableBalance =>
          .ok [addMuxedE ctx ctx.sourceAccount td.1
            (dset td.2 "balance_id" (.str cb.balanceId))]
      | _ => .error .invalidSponsorshipEntryType

/-- `addSignerSponsorshipEffects` as a function of the projections it
reads. -/
def addSSabs (ctx : OperationContext) (t : LedgerEntryType)
    (preSigners postSigners : List (String × String))
    (preId postId : String) : List EffectOutput :=
  if t ≠ LedgerEntryType.account then []
  else
    let preKeys := preSigners.map Prod.fst
    let postKeys := postSigners.map Prod.fst
    let all := preKeys ++ postKeys.filter (fun s => ¬ preKeys.contains s)
    let allSorted := List.insertionSort (fun a b : String => a ≤ b) all
    (allSorted.map (fun signer =>
      match List.lookup signer preSigners, List.lookup signer postSigners with
      | none, none => []
      | none, some post =>
          [addUnmuxedE ctx postId .signerSponsorshipCreated
            [("sponsor", .str post), ("signer", .str signer)]]
      | some pre, none =>
          [addUnmuxedE ctx preId .signerSponsorshipRemoved
            [("former_sponsor", .str pre), ("signer", .str signer)]]
      | some pre, some post =>
          if pre = post then []
          else
            [addUnmuxedE ctx postId .signerSponsorshipUpdated
              [("former_sponsor", .str pre), ("new_sponsor", .str post),
               ("signer", .str signer)]])).flatten

/-- The pool-relevant view of a change: its entry kind and the pool
payloads of its two sides. -/
def changeLPView (c : Change) :
    LedgerEntryType × Option LiquidityPoolEntry ×
      Option LiquidityPoolEntry :=
  (c.type, optLP c.pre, optLP c.post)

/-- `getLiquidityPoolAndProductDelta` as a function of the pool views of
the changes. -/
def getLPPDabs :
    List (LedgerEntryType × Option LiquidityPoolEntry ×
      Option LiquidityPoolEntry) → Option String →
    Except EffErr (Option LiquidityPoolEntry × LiquidityPoolDelta)
  | [], _ => .error .liquidityPoolChangeNotFound
  | v :: rest, lpID =>
    if v.1 ≠ LedgerEntryType.liquidityPool then getLPPDabs rest lpID
    else
      match v.2.1, v.2.2 with
      | none, none => .ok (none, ⟨0, 0, 0⟩)
      | some preLP, none =>
        if poolIdMismatch lpID preLP then getLPPDabs rest lpID
        else
          match preLP.body with
          | .constantProduct cp =>
              .ok (some preLP,
                ⟨-cp.reserveA, -cp.reserveB, -cp.totalPoolShares⟩)
          | .other _ => .error .liquidityPoolBodyTypeMismatch
      | none, some postLP =>
        if poolIdMismatch lpID postLP then getLPPDabs rest lpID
        else
          match postLP.body with
          | .constantProduct cp =>
              .ok (some postLP,
                ⟨cp.reserveA, cp.reserveB, cp.totalPoolShares⟩)
          | .other _ => .error .liquidityPoolBodyTypeMismatch
      | some preLP, some postLP =>
        if poolIdMismatch lpID preLP then getLPPDabs rest lpID
        else
          match preLP.body with
          | .other _ => .error .liquidityPoolBodyTypeMismatch
          | .constantProduct cpPre =>
            if poolIdMismatch lpID postLP then getLPPDabs rest lpID
            else
              match postLP.body with
              | .other _ => .error .liquidityPoolBodyTypeMismatch
              | .constantProduct cpPost =>
                  .ok (some postLP,
                    ⟨cpPost.reserveA - cpPre.reserveA,
                     cpPost.reserveB - cpPre.reserveB,
                     cpPost.totalPoolShares - cpPre.totalPoolShares⟩)

/-- `addLedgerEntryLiquidityPoolEffects` as a function of the projections
it reads. -/
def addLPLabs (ctx : OperationContext) (t : LedgerEntryType)
    (preLP postLP : Option LiquidityPoolEntry) : List EffectOutput :=
  if t ≠ LedgerEntryType.liquidityPool then []
  else
    match preLP, postLP with
    | none, some post =>
        [addMuxedE ctx ctx.sourceAccount .liquidityPoolCreated
          [("liquidity_pool", liquidityPoolDetailsV post)]]
    | some pre, none =>
        [addMuxedE ctx ctx.sourceAccount .liquidityPoolRemoved
          [("liquidity_pool_id", .str pre.liquidityPoolId)]]
    | _, _ => []

/-! ## Concrete instances for witnesses and counterexamples -/

/-- The native asset. -/
def natAsset : Asset := { type := .native, code := "", issuer := "" }

/-- A 4-character credit asset. -/
def usdAsset : Asset :=
  { type := .creditAlphanum4, code := "USD", issuer := "GISSUER" }

/-- A second credit asset, canonically below `usdAsset`. -/
def eurAsset : Asset :=
  { type := .creditAlphanum4, code := "EUR", issuer := "GISSUER" }

/-- An unmuxed source account. -/
def wSrc : MuxedAccount := { accountId := "GSRC", muxedAddress := none }

/-- An unmuxed destination account. -/
def wDest : MuxedAccount := { accountId := "GDEST", muxedAddress := none }

/-- A nonzero order-book claim. -/
def wClaim : ClaimAtom := .orderBook
  { sellerId := "GSELLER", offerId := 7, assetSold := usdAsset,
    amountSold := 30, assetBought := natAsset, amountBought := 50 }

/-- An all-zero order-book claim (skipped by the trade pass). -/
def wClaimZero : ClaimAtom := .orderBook
  { sellerId := "GSELLER2", offerId := 8, assetSold := usdAsset,
    amountSold := 0, assetBought := natAsset, amountBought := 0 }

/-- A base operation context shared by the concrete instances. -/
def baseCtx : OperationContext :=
  { index := 0, txIndex := 1, txSuccessful := true,
    txSourceAccount := wSrc, opSourceAccount := none,
    body := .manageSellOffer,
    result := .manageSellOffer (.success { offersClaimed := [wClaim] }),
    changes := [], ledgerSequence := 5, ledgerClosed := 1000,
    network := "pub" }

/-- A failed-transaction context with an unknown operation kind and a
nonempty change list. -/
def ctxFailedTx : OperationContext :=
  { baseCtx with
    txSuccessful := false
    body := .unknownKind
    result := .other
    changes := [{ type := .account
                  pre := none
                  post := some { sponsoringID := some "GSPON"
                                 data := .account { accountId := "GA"
                                                    signerSponsors := [] } } }] }

/-- A successful path-payment strict-receive context with one nonzero
order-book claim. -/
def ctxStrictReceive : OperationContext :=
  { baseCtx with
    body := .pathPaymentStrictReceive
      { sendAsset := usdAsset, sendMax := 100, destination := wDest,
        destAsset := natAsset, destAmount := 50 }
    result := .pathPaymentStrictReceive
      (.success { offers := [wClaim], sendAmount := 42 }) }

/-- A create-passive-sell-offer context whose result is misfiled under the
`ManageSellOffer` arm. -/
def ctxPassiveMisfiled : OperationContext :=
  { baseCtx with
    body := .createPassiveSellOffer
    result := .manageSellOffer (.success { offersClaimed := [wClaim] }) }

/-- An account change gaining a sponsor. -/
def chgSponsorGained : Change :=
  { type := .account
    pre := some { sponsoringID := none
                  data := .account { accountId := "GA", signerSponsors := [] } }
    post := some { sponsoringID := some "GSPONSOR"
                   data := .account { accountId := "GA", signerSponsors := [] } } }

/-- A liquidity-pool entry over `eurAsset`/`usdAsset`. -/
def wPool : LiquidityPoolEntry :=
  { liquidityPoolId := "pool1"
    body := .constantProduct
      { assetA := eurAsset, assetB := usdAsset, fee := 30,
        reserveA := 100, reserveB := 200, totalPoolShares := 70,
        poolSharesTrustLineCount := 2 } }

/-- A pool-removal change for `wPool`. -/
def chgPoolRemoved : Change :=
  { type := .liquidityPool
    pre := some { sponsoringID := none, data := .liquidityPool wPool }
    post := none }

/-- A created claimable balance holding `usdAsset`. -/
def cbUsd : ClaimableBalanceEntry :=
  { balanceId := "cbUSD", asset := usdAsset, amount := 200 }

/-- A created claimable balance holding `eurAsset`. -/
def cbEur : ClaimableBalanceEntry :=
  { balanceId := "cbEUR", asset := eurAsset, amount := 100 }

/-- A creation change for a claimable balance. -/
def mkCBChange (cb : ClaimableBalanceEntry) : Change :=
  { type := .claimableBalance
    pre := none
    post := some { sponsoringID := none, data := .claimableBalance cb } }

/-- Revocation context: a pool delta but no created claimable balances
(the C6 counterexample shape). -/
def ctxRevokeNoCB : OperationContext :=
  { baseCtx with
    body := .setTrustLineFlags
      { trustor := "GTRUSTOR", asset := usdAsset, setFlags := 0,
        clearFlags := 1 }
    result := .other
    changes := [chgPoolRemoved] }

/-- Revocation context: a pool delta and two created claimable balances
listed in non-canonical order. -/
def ctxRevokeTwoCB : OperationContext :=
  { ctxRevokeNoCB with
    changes := [chgPoolRemoved, mkCBChange cbUsd, mkCBChange cbEur] }

/-- Revocation context: a pool delta and one created claimable balance
matching only the pool's second asset. -/
def ctxRevokeOneCB : OperationContext :=
  { ctxRevokeNoCB with
    changes := [chgPoolRemoved, mkCBChange cbUsd] }

/-- An account entry with two sponsored signers, in one list order. -/
def acctSignersA : AccountEntry :=
  { accountId := "GA"
    signerSponsors := [("GSIG1", "GSPON1"), ("GSIG2", "GSPON2")] }

/-- The same account entry with the signer map listed in the other
order. -/
def acctSignersB : AccountEntry :=
  { accountId := "GA"
    signerSponsors := [("GSIG2", "GSPON2"), ("GSIG1", "GSPON1")] }

/-- A context whose only change creates `acctSignersA`. -/
def ctxSignersA : OperationContext :=
  { baseCtx with
    body := .beginSponsoringFutureReserves
    result := .other
    changes := [{ type := .account
                  pre := none
                  post := some { sponsoringID := none
                                 data := .account acctSignersA } }] }

/-- The same context with the signer map listed in the other order. -/
def ctxSignersB : OperationContext :=
  { ctxSignersA with
    changes := [{ type := .account
                  pre := none
                  post := some { sponsoringID := none
                                 data := .account acctSignersB } }] }

/-- A second operation in the same ledger as `baseCtx` (different
transaction index). -/
def ctxOtherOp : OperationContext :=
  { baseCtx with
    txIndex := 2
    body := .payment { destination := wDest, asset := natAsset, amount := 50 }
    result := .other }

/-- An allow-trust payload authorizing the trustor. -/
def wAllowTrustOp : AllowTrustOp :=
  { trustor := "GTRUSTOR", assetCode := "USD",
    assetType := .creditAlphanum4, authorize := 1 }

/-- A set-trustline-flags payload setting clawback and clearing
authorization. -/
def wSetTLFOp : SetTrustLineFlagsOp :=
  { trustor := "GTRUSTOR", asset := usdAsset, setFlags := 4,
    clearFlags := 1 }

/-! # Theorems -/

/-- C1: for every operation whose enclosing transaction's result is not
successful, the effect derivation returns an empty effect list and no
error, regardless of the operation's kind, its entry changes or its
recorded result. -/
theorem c1_failed_transaction_yields_empty (ctx : OperationContext)
    (h : ctx.txSuccessful = false) : effects ctx = .ok [] := by
  simp [effects, h]

/-- C1 witness: a failed transaction around an unknown operation kind
with a nonempty change list still derives no effects and no error. -/
theorem c1_failed_transaction_yields_empty_witness :
    ctxFailedTx.txSuccessful = false ∧ effects ctxFailedTx = .ok [] :=
  ⟨rfl, c1_failed_transaction_yields_empty ctxFailedTx rfl⟩

/-- C3: evaluation at the failing input — a successful path-payment
strict-receive with one nonzero non-pool claim derives the destination
credit, the source debit, and then eight trade effects including two
OfferCreated effects: the source passes `false` for the trade pass's
path-payment mode, so OfferCreated is not suppressed, contrary to the
claim. -/
theorem c3_strict_receive_offer_created_not_suppressed :
    ((effects ctxStrictReceive).toOption.getD []).map EffectOutput.effType =
      [.accountCredited, .accountDebited,
       .trade, .trade, .offerUpdated, .offerUpdated,
       .offerRemoved, .offerRemoved, .offerCreated, .offerCreated] := by
  rfl

/-- The per-claim trade emission matches the spec-side fixed-order shape:
the enumerated loop with its skip of index 3 in path-payment mode equals
the buyer/seller pairs over the fixed kind order. -/
theorem addClaimTradeEffects_eq_spec (ctx : OperationContext)
    (buyer : MuxedAccount) (claim : ClaimAtom) (ipp : Bool) :
    addClaimTradeEffects ctx buyer claim ipp =
      specClaimTradeEffects ctx buyer claim ipp := by
  cases ipp <;> rfl

/-- Lookup of another key is unchanged by the overwrite pass of `dset`. -/
theorem lookup_map_overwrite (k k2 : String) (v : Val) (h : k2 ≠ k) :
    ∀ d : Details,
      List.lookup k2 (d.map (fun kv => if kv.1 == k then (k, v) else kv)) =
        List.lookup k2 d := by
  intro d
  induction d with
  | nil => rfl
  | cons kv rest ih =>
    obtain ⟨k1, v1⟩ := kv
    simp only [List.map_cons]
    by_cases hk : k1 = k
    · subst hk
      rw [if_pos (by simp)]
      simp only [List.lookup_cons, beq_eq_false_iff_ne.mpr h]
      exact ih
    · rw [if_neg (by simp [hk])]
      simp only [List.lookup_cons]
      cases hb : k2 == k1
      · exact ih
      · rfl

/-- Lookup of another key is unchanged by the append pass of `dset`. -/
theorem lookup_append_single (k k2 : String) (v : Val) (h : k2 ≠ k) :
    ∀ d : Details, List.lookup k2 (d ++ [(k, v)]) = List.lookup k2 d := by
  intro d
  induction d with
  | nil =>
    simp only [List.nil_append, List.lookup_cons,
      beq_eq_false_iff_ne.mpr h]
  | cons kv rest ih =>
    obtain ⟨k1, v1⟩ := kv
    simp only [List.cons_append, List.lookup_cons]
    cases hb : k2 == k1
    · exact ih
    · rfl

/-- Go map assignment leaves the bindings of other keys unchanged. -/
theorem dlookup_dset_ne (d : Details) (k k2 : String) (v : Val)
    (h : k2 ≠ k) : dlookup (dset d k v) k2 = dlookup d k2 := by
  unfold dset dlookup
  split
  · exact lookup_map_overwrite k k2 v h d
  · exact lookup_append_single k k2 v h d

/-- Go map assignment binds the assigned key to the assigned value. -/
theorem dlookup_dset_self (d : Details) (k : String) (v : Val) :
    dlookup (dset d k v) k = some v := by
  unfold dset dlookup
  split
  · rename_i hany
    induction d with
    | nil => simp at hany
    | cons kv rest ih =>
      obtain ⟨k1, v1⟩ := kv
      simp only [List.map_cons]
      by_cases hk : k1 = k
      · subst hk
        rw [if_pos (by simp)]
        simp [List.lookup_cons]
      · simp only [List.any_cons, Bool.or_eq_true, beq_iff_eq, hk,
          false_or] at hany
        rw [if_neg (by simp [hk])]
        simp only [List.lookup_cons, beq_eq_false_iff_ne.mpr (Ne.symm hk)]
        exact ih hany
  · rename_i hany
    induction d with
    | nil =>
      simp [List.lookup_cons]
    | cons kv rest ih =>
      obtain ⟨k1, v1⟩ := kv
      simp only [List.any_cons, Bool.or_eq_true, beq_iff_eq, not_or] at hany
      simp only [List.cons_append, List.lookup_cons,
        beq_eq_false_iff_ne.mpr (Ne.symm hany.1)]
      exact ih (by simpa using hany.2)

/-- `addAssetDetails` leaves the bindings of keys other than its three
prefixed asset keys unchanged. -/
theorem dlookup_addAssetDetails_ne (d : Details) (a : Asset)
    (pfx k2 : String) (h1 : k2 ≠ pfx ++ "asset_type")
    (h2 : k2 ≠ pfx ++ "asset_code") (h3 : k2 ≠ pfx ++ "asset_issuer") :
    dlookup (addAssetDetails d a pfx) k2 = dlookup d k2 := by
  obtain ⟨t, c, i⟩ := a
  cases t <;>
    simp [addAssetDetails, dlookup_dset_ne, h1, h2, h3]

/-- `addAccountAndMuxedAccountDetails` leaves the bindings of keys other
than its key and muxed key unchanged. -/
theorem dlookup_addAccountDetails_ne (d : Details) (a : MuxedAccount)
    (key k2 : String) (h1 : k2 ≠ key) (h2 : k2 ≠ key ++ "_muxed") :
    dlookup (addAccountAndMuxedAccountDetails d a key) k2 = dlookup d k2 := by
  obtain ⟨acc, mux⟩ := a
  cases mux <;>
    simp [addAccountAndMuxedAccountDetails, dlookup_dset_ne, h1, h2]

/-- `addAccountAndMuxedAccountDetails` binds its key to the account
address. -/
theorem dlookup_addAccountDetails_self (d : Details) (a : MuxedAccount)
    (key : String) : dlookup (addAccountAndMuxedAccountDetails d a key) key =
      some (.str a.accountId) := by
  obtain ⟨acc, mux⟩ := a
  cases mux with
  | none => simp [addAccountAndMuxedAccountDetails, dlookup_dset_self]
  | some m =>
    simp [addAccountAndMuxedAccountDetails]
    rw [dlookup_dset_ne]
    · exact dlookup_dset_self d key (.str acc)
    · intro hcontra
      have hlen := congrArg String.length hcontra
      rw [String.length_append] at hlen
      have h6 : "_muxed".length = 6 := rfl
      omega

/-- The buyer-side and seller-side trade details mirror the claim from
the opposite party's perspective: the buyer's bought amount is the
claim's sold amount and vice versa, the buyer side names the seller and
the seller side names the buyer. -/
theorem tradeDetails_mirror (buyer : MuxedAccount) (claim : ClaimAtom) :
    dlookup (tradeDetails buyer claim.sellerId claim).1 "bought_amount" =
      some (.str (amountString claim.amountSold)) ∧
    dlookup (tradeDetails buyer claim.sellerId claim).1 "sold_amount" =
      some (.str (amountString claim.amountBought)) ∧
    dlookup (tradeDetails buyer claim.sellerId claim).2 "bought_amount" =
      some (.str (amountString claim.amountBought)) ∧
    dlookup (tradeDetails buyer claim.sellerId claim).2 "sold_amount" =
      some (.str (amountString claim.amountSold)) ∧
    dlookup (tradeDetails buyer claim.sellerId claim).1 "seller" =
      some (.str claim.sellerId) ∧
    dlookup (tradeDetails buyer claim.sellerId claim).2 "seller" =
      some (.str buyer.accountId) ∧
    dlookup (tradeDetails buyer claim.sellerId claim).1 "offer_id" =
      some (.int claim.offerId) ∧
    dlookup (tradeDetails buyer claim.sellerId claim).2 "offer_id" =
      some (.int claim.offerId) := by
  unfold tradeDetails
  refine ⟨?_, ?_, ?_, ?_, ?_, ?_, ?_, ?_⟩ <;>
    rw [dlookup_addAssetDetails_ne _ _ _ _ (by decide) (by decide) (by decide),
      dlookup_addAssetDetails_ne _ _ _ _ (by decide) (by decide) (by decide)]
  case _ => rfl
  case _ => rfl
  case _ =>
    rw [dlookup_addAccountDetails_ne _ _ _ _ (by decide) (by decide)]; rfl
  case _ =>
    rw [dlookup_addAccountDetails_ne _ _ _ _ (by decide) (by decide)]; rfl
  case _ => rfl
  case _ => exact dlookup_addAccountDetails_self _ _ _
  case _ => rfl
  case _ =>
    rw [dlookup_addAccountDetails_ne _ _ _ _ (by decide) (by decide)]; rfl

/-- C2: the trade pass iterates the claimed offers in order; a claim with
both amounts zero produces no effects; a non-pool claim with a nonzero
amount produces exactly 8 effects in the fixed kind order Trade,
OfferUpdated, OfferRemoved, OfferCreated — for each kind one
buyer-attributed then one seller-attributed effect with details mirrored
from the opposite party (see `tradeDetails_mirror`) — except that in
path-payment mode the two OfferCreated effects are omitted, yielding
exactly 6. -/
theorem c2_trade_pass_fixed_order (ctx : OperationContext)
    (buyer : MuxedAccount) (claims : List ClaimAtom) (ipp : Bool)
    (h : ∀ c ∈ claims, c.isPool = false) :
    addIngestTradeEffects ctx buyer claims ipp =
      .ok (claims.flatMap (fun c =>
        if c.amountSold = 0 ∧ c.amountBought = 0 then []
        else specClaimTradeEffects ctx buyer c ipp)) ∧
    (∀ c : ClaimAtom,
      (specClaimTradeEffects ctx buyer c ipp).length =
        if ipp then 6 else 8) ∧
    (∀ c : ClaimAtom,
      dlookup (tradeDetails buyer c.sellerId c).1 "bought_amount" =
        some (.str (amountString c.amountSold)) ∧
      dlookup (tradeDetails buyer c.sellerId c).2 "bought_amount" =
        some (.str (amountString c.amountBought))) := by
  refine ⟨?_, ?_, fun c => ⟨(tradeDetails_mirror buyer c).1,
    (tradeDetails_mirror buyer c).2.2.1⟩⟩
  · induction claims with
    | nil => rfl
    | cons c rest ih =>
      have hc := h c (by simp)
      have hrest : ∀ x ∈ rest, x.isPool = false := fun x hx =>
        h x (by simp [hx])
      have ihr := ih hrest
      cases c with
      | liquidityPool a => simp [ClaimAtom.isPool] at hc
      | orderBook a =>
        by_cases hz : a.amountSold = 0 ∧ a.amountBought = 0
        · have hb : (((ClaimAtom.orderBook a).amountSold == 0) &&
              ((ClaimAtom.orderBook a).amountBought == 0)) = true := by
            simp [ClaimAtom.amountSold, ClaimAtom.amountBought, hz.1, hz.2]
          simp only [addIngestTradeEffects, hb, if_true]
          rw [ihr]
          have hzc : (ClaimAtom.orderBook a).amountSold = 0 ∧
              (ClaimAtom.orderBook a).amountBought = 0 := hz
          simp [List.flatMap_cons, if_pos hzc]
        · have hb : (((ClaimAtom.orderBook a).amountSold == 0) &&
              ((ClaimAtom.orderBook a).amountBought == 0)) = false := by
            rcases not_and_or.mp hz with h1 | h1 <;>
              simp [ClaimAtom.amountSold, ClaimAtom.amountBought,
                beq_iff_eq, h1]
          have hzc : ¬((ClaimAtom.orderBook a).amountSold = 0 ∧
              (ClaimAtom.orderBook a).amountBought = 0) := hz
          simp only [addIngestTradeEffects, hb, Bool.false_eq_true,
            if_false]
          rw [ihr]
          simp only [List.flatMap_cons, if_neg hzc,
            addClaimTradeEffects_eq_spec]
          rfl
  · intro c
    cases ipp <;> rfl

/-- C2 witness: the trade pass at a concrete two-claim list (one nonzero
offer claim, one all-zero claim). -/
theorem c2_trade_pass_fixed_order_witness :
    addIngestTradeEffects baseCtx wSrc [wClaim, wClaimZero] false =
      .ok ([wClaim, wClaimZero].flatMap (fun c =>
        if c.amountSold = 0 ∧ c.amountBought = 0 then []
        else specClaimTradeEffects baseCtx wSrc c false)) :=
  (c2_trade_pass_fixed_order baseCtx wSrc [wClaim, wClaimZero] false
    (by decide)).1

/-- C4: a create-passive-sell-offer generator reads the claimed offers
from the ManageSellOffer result arm whenever the result's tag equals
ManageSellOffer (the documented bug-compatibility), and only otherwise
falls back to the dedicated CreatePassiveSellOffer arm; in both cases the
trade pass runs in non-path-payment mode (`false`). -/
theorem c4_create_passive_arm_selection (ctx : OperationContext)
    (s : ManageOfferSuccessResult) :
    (ctx.result = .manageSellOffer (.success s) →
      addCreatePassiveSellOfferEffect ctx =
        addIngestTradeEffects ctx ctx.sourceAccount s.offersClaimed false) ∧
    (ctx.result = .createPassiveSellOffer (.success s) →
      addCreatePassiveSellOfferEffect ctx =
        addIngestTradeEffects ctx ctx.sourceAccount s.offersClaimed false) := by
  constructor
  · intro h
    simp [addCreatePassiveSellOfferEffect, h, OperationResultTr.type,
      OperationResultTr.mustManageSellOfferResult,
      ManageOfferResult.mustSuccess]
    rfl
  · intro h
    simp [addCreatePassiveSellOfferEffect, h, OperationResultTr.type,
      OperationResultTr.mustCreatePassiveSellOfferResult,
      ManageOfferResult.mustSuccess]
    rfl

/-- C4 witness: a create-passive-sell-offer whose result is misfiled
under the ManageSellOffer arm is read from that arm. -/
theorem c4_create_passive_arm_selection_witness :
    addCreatePassiveSellOfferEffect ctxPassiveMisfiled =
      addIngestTradeEffects ctxPassiveMisfiled
        ctxPassiveMisfiled.sourceAccount [wClaim] false :=
  (c4_create_passive_arm_selection ctxPassiveMisfiled
    { offersClaimed := [wClaim] }).1 rfl

/-- C5: the entry-sponsorship sweep emits nothing for a change whose
entry kind has no sponsorship table entry (offers, liquidity pools, ...),
and for table kinds emits exactly one effect by the three-way rule —
absent-to-present sponsor emits the kind's Created effect carrying the
new sponsor, present-to-absent emits Removed carrying the former sponsor,
present-to-different-present emits Updated carrying both — while a change
whose pre and post sponsor agree (including both absent) emits nothing. -/
theorem c5_entry_sponsorship_three_way (ctx : OperationContext)
    (c : Change) :
    (sponsoringEffectsTable c.type = none →
      addLedgerEntrySponsorshipEffects ctx c = .ok []) ∧
    (∀ tbl, sponsoringEffectsTable c.type = some tbl →
      (∀ s, c.pre.bind (·.sponsoringID) = none →
        c.post.bind (·.sponsoringID) = some s →
        ∃ e, addLedgerEntrySponsorshipEffects ctx c = .ok [e] ∧
          e.effType = tbl.1 ∧
          dlookup e.details "sponsor" = some (.str s)) ∧
      (∀ s, c.pre.bind (·.sponsoringID) = some s →
        c.post.bind (·.sponsoringID) = none →
        ∃ e, addLedgerEntrySponsorshipEffects ctx c = .ok [e] ∧
          e.effType = tbl.2.2 ∧
          dlookup e.details "former_sponsor" = some (.str s)) ∧
      (∀ s1 s2, c.pre.bind (·.sponsoringID) = some s1 →
        c.post.bind (·.sponsoringID) = some s2 → s1 ≠ s2 →
        ∃ e, addLedgerEntrySponsorshipEffects ctx c = .ok [e] ∧
          e.effType = tbl.2.1 ∧
          dlookup e.details "former_sponsor" = some (.str s1) ∧
          dlookup e.details "new_sponsor" = some (.str s2)) ∧
      (c.pre.bind (·.sponsoringID) = c.post.bind (·.sponsoringID) →
        addLedgerEntrySponsorshipEffects ctx c = .ok [])) := by
  obtain ⟨ct, cpre, cpost⟩ := c
  constructor
  · intro h
    simp only [addLedgerEntrySponsorshipEffects, h]
  · intro tbl htbl
    refine ⟨?_, ?_, ?_, ?_⟩
    · intro s hpre hpost
      cases ct <;> simp only [sponsoringEffectsTable] at htbl <;>
        cases htbl <;>
        simp only [addLedgerEntrySponsorshipEffects,
          sponsoringEffectsTable, hpre, hpost] <;>
        refine ⟨_, rfl, rfl, ?_⟩
      · rfl
      · rcases hta : (match cpost with
          | some e => e.data
          | none => (cpre.getD ⟨none, .offer⟩).data).mustTrustLine.asset with
          a | pid <;>
          simp only [addUnmuxedE, mkEffect, hta]
        · rw [dlookup_dset_ne _ _ _ _ (by decide)]; rfl
        · rw [dlookup_dset_ne _ _ _ _ (by decide),
            dlookup_dset_ne _ _ _ _ (by decide)]
          rfl
      · simp only [addMuxedE, mkEffect]
        rw [dlookup_dset_ne _ _ _ _ (by decide)]; rfl
      · simp only [addMuxedE, mkEffect]
        rw [dlookup_dset_ne _ _ _ _ (by decide)]; rfl
    · intro s hpre hpost
      cases ct <;> simp only [sponsoringEffectsTable] at htbl <;>
        cases htbl <;>
        simp only [addLedgerEntrySponsorshipEffects,
          sponsoringEffectsTable, hpre, hpost] <;>
        refine ⟨_, rfl, rfl, ?_⟩
      · rfl
      · rcases hta : (match cpost with
          | some e => e.data
          | none => (cpre.getD ⟨none, .offer⟩).data).mustTrustLine.asset with
          a | pid <;>
          simp only [addUnmuxedE, mkEffect, hta]
        · rw [dlookup_dset_ne _ _ _ _ (by decide)]; rfl
        · rw [dlookup_dset_ne _ _ _ _ (by decide),
            dlookup_dset_ne _ _ _ _ (by decide)]
          rfl
      · simp only [addMuxedE, mkEffect]
        rw [dlookup_dset_ne _ _ _ _ (by decide)]; rfl
      · simp only [addMuxedE, mkEffect]
        rw [dlookup_dset_ne _ _ _ _ (by decide)]; rfl
    · intro s1 s2 hpre hpost hne
      cases ct <;> simp only [sponsoringEffectsTable] at htbl <;>
        cases htbl <;>
        simp only [addLedgerEntrySponsorshipEffects,
          sponsoringEffectsTable, hpre, hpost, if_neg hne] <;>
        refine ⟨_, rfl, rfl, ?_, ?_⟩
      · rfl
      · rfl
      · rcases hta : (match cpost with
          | some e => e.data
          | none => (cpre.getD ⟨none, .offer⟩).data).mustTrustLine.asset with
          a | pid <;>
          simp only [addUnmuxedE, mkEffect, hta]
        · rw [dlookup_dset_ne _ _ _ _ (by decide)]; rfl
        · rw [dlookup_dset_ne _ _ _ _ (by decide),
            dlookup_dset_ne _ _ _ _ (by decide)]
          rfl
      · rcases hta : (match cpost with
          | some e => e.data
          | none => (cpre.getD ⟨none, .offer⟩).data).mustTrustLine.asset with
          a | pid <;>
          simp only [addUnmuxedE, mkEffect, hta]
        · rw [dlookup_dset_ne _ _ _ _ (by decide)]; rfl
        · rw [dlookup_dset_ne _ _ _ _ (by decide),
            dlookup_dset_ne _ _ _ _ (by decide)]
          rfl
      · simp only [addMuxedE, mkEffect]
        rw [dlookup_dset_ne _ _ _ _ (by decide)]; rfl
      · simp only [addMuxedE, mkEffect]
        rw [dlookup_dset_ne _ _ _ _ (by decide)]; rfl
      · simp only [addMuxedE, mkEffect]
        rw [dlookup_dset_ne _ _ _ _ (by decide)]; rfl
      · simp only [addMuxedE, mkEffect]
        rw [dlookup_dset_ne _ _ _ _ (by decide)]; rfl
    · intro heq
      rcases hpre : cpre.bind (·.sponsoringID) with _ | s <;>
        rcases hpost : cpost.bind (·.sponsoringID) with _ | s2 <;>
        rw [hpre, hpost] at heq
      · simp only [addLedgerEntrySponsorshipEffects, htbl, hpre, hpost]
      · exact absurd heq (by simp)
      · exact absurd heq (by simp)
      · have hs : s = s2 := by simpa using heq
        simp only [addLedgerEntrySponsorshipEffects, htbl, hpre, hpost,
          if_pos hs]

/-- C5 witness: an account entry gaining a sponsor emits exactly one
AccountSponsorshipCreated effect carrying the new sponsor. -/
theorem c5_entry_sponsorship_three_way_witness :
    ((addLedgerEntrySponsorshipEffects baseCtx
        chgSponsorGained).toOption.getD []).length = 1 ∧
    (((addLedgerEntrySponsorshipEffects baseCtx
        chgSponsorGained).toOption.getD []).headD
      (mkEffect baseCtx "" none .trade [])).effType =
        .accountSponsorshipCreated ∧
    dlookup (((addLedgerEntrySponsorshipEffects baseCtx
        chgSponsorGained).toOption.getD []).headD
      (mkEffect baseCtx "" none .trade [])).details "sponsor" =
        some (.str "GSPONSOR") := by
  obtain ⟨e, h1, h2, h3⟩ :=
    ((c5_entry_sponsorship_three_way baseCtx chgSponsorGained).2
      (.accountSponsorshipCreated, .accountSponsorshipUpdated,
        .accountSponsorshipRemoved) rfl).1 "GSPONSOR" rfl rfl
  rw [h1]
  exact ⟨rfl, h2, h3⟩

/-- Lookup of the three flag keys through `setTrustLineFlagDetails`: a
flag key is bound to the pass's value exactly when its bit is set in the
flag word, and untouched otherwise. -/
theorem setTrustLineFlagDetails_lookup (d : Details) (flags : Nat)
    (v : Bool) :
    dlookup (setTrustLineFlagDetails d flags v) "authorized_flag" =
      (if tlfIsAuthorized flags then some (.bool v)
       else dlookup d "authorized_flag") ∧
    dlookup (setTrustLineFlagDetails d flags v)
        "authorized_to_maintain_liabilites" =
      (if tlfIsAuthorizedToMaintainLiabilities flags then some (.bool v)
       else dlookup d "authorized_to_maintain_liabilites") ∧
    dlookup (setTrustLineFlagDetails d flags v) "clawback_enabled_flag" =
      (if tlfIsClawbackEnabled flags then some (.bool v)
       else dlookup d "clawback_enabled_flag") := by
  unfold setTrustLineFlagDetails
  by_cases h1 : tlfIsAuthorized flags <;>
    by_cases h2 : tlfIsAuthorizedToMaintainLiabilities flags <;>
      by_cases h3 : tlfIsClawbackEnabled flags <;>
        simp only [h1, h2, h3, if_true, if_false, Bool.false_eq_true] <;>
        refine ⟨?_, ?_, ?_⟩ <;>
        (repeat' first
          | rfl
          | exact trivial
          | rw [dlookup_dset_self]
          | rw [dlookup_dset_ne _ _ _ _ (by decide)])

/-- The flag keys are absent from the base trustor/asset detail set. -/
theorem base_flag_lookup_none (trustor : String) (asset : Asset) :
    dlookup (addAssetDetails [("trustor", .str trustor)] asset "")
        "authorized_flag" = none ∧
    dlookup (addAssetDetails [("trustor", .str trustor)] asset "")
        "authorized_to_maintain_liabilites" = none ∧
    dlookup (addAssetDetails [("trustor", .str trustor)] asset "")
        "clawback_enabled_flag" = none := by
  refine ⟨?_, ?_, ?_⟩ <;>
    (rw [dlookup_addAssetDetails_ne _ _ _ _ (by decide) (by decide)
      (by decide)]; rfl)

/-- C7: for successful allow-trust and set-trustline-flags operations,
the generator computes the authorized / authorized-to-maintain-
liabilities / clawback-enabled booleans by bit tests on the flag words,
emits a TrustlineFlagsUpdated effect carrying exactly the changed flags
(set flags as `true`, cleared flags as `false`, untouched flags absent),
and then invokes the liquidity-pool revocation sweep, whose effects
follow.  (Allow-trust additionally emits its legacy TrustlineFlagsUpdated
effect, carrying no flag details, before the flag-detail effect.) -/
theorem c7_trustline_flags_updated (ctx : OperationContext)
    (aop : AllowTrustOp) (sop : SetTrustLineFlagsOp)
    (rev : List EffectOutput)
    (hrev : addLiquidityPoolRevokedEffect ctx = .ok rev) :
    (∃ e, addSetTrustLineFlagsEffects ctx sop = .ok (e :: rev) ∧
      e.effType = .trustlineFlagsUpdated ∧
      dlookup e.details "authorized_flag" =
        specFlagValue sop.setFlags sop.clearFlags 1 ∧
      dlookup e.details "authorized_to_maintain_liabilites" =
        specFlagValue sop.setFlags sop.clearFlags 2 ∧
      dlookup e.details "clawback_enabled_flag" =
        specFlagValue sop.setFlags sop.clearFlags 4) ∧
    (∃ l e, addAllowTrustEffects ctx aop = .ok (l :: e :: rev) ∧
      l.effType = .trustlineFlagsUpdated ∧
      e.effType = .trustlineFlagsUpdated ∧
      dlookup e.details "authorized_flag" =
        (if tlfIsAuthorized aop.authorize then some (.bool true)
         else if tlfIsAuthorizedToMaintainLiabilities aop.authorize then
           none
         else some (.bool false)) ∧
      dlookup e.details "authorized_to_maintain_liabilites" =
        (if tlfIsAuthorized aop.authorize then none
         else if tlfIsAuthorizedToMaintainLiabilities aop.authorize then
           some (.bool true)
         else some (.bool false)) ∧
      dlookup e.details "clawback_enabled_flag" = none) := by
  constructor
  · have hbase := base_flag_lookup_none sop.trustor sop.asset
    refine ⟨addMuxedE ctx ctx.sourceAccount .trustlineFlagsUpdated
      (setTrustLineFlagDetails (setTrustLineFlagDetails
        (addAssetDetails [("trustor", Val.str sop.trustor)] sop.asset "")
        sop.setFlags true) sop.clearFlags false), ?_, rfl, ?_, ?_, ?_⟩
    · simp [addSetTrustLineFlagsEffects, addTrustLineFlagsEffect, hrev]
      rfl
    · simp only [addMuxedE, mkEffect]
      rw [(setTrustLineFlagDetails_lookup _ _ _).1,
        (setTrustLineFlagDetails_lookup _ _ _).1, hbase.1]
      simp only [specFlagValue, tlfIsAuthorized]
    · simp only [addMuxedE, mkEffect]
      rw [(setTrustLineFlagDetails_lookup _ _ _).2.1,
        (setTrustLineFlagDetails_lookup _ _ _).2.1, hbase.2.1]
      simp only [specFlagValue, tlfIsAuthorizedToMaintainLiabilities]
    · simp only [addMuxedE, mkEffect]
      rw [(setTrustLineFlagDetails_lookup _ _ _).2.2,
        (setTrustLineFlagDetails_lookup _ _ _).2.2, hbase.2.2]
      simp only [specFlagValue, tlfIsClawbackEnabled]
  · have hbase := base_flag_lookup_none aop.trustor
      (aop.toAsset ctx.sourceAccount.accountId)
    by_cases ha : tlfIsAuthorized aop.authorize
    · refine ⟨addMuxedE ctx ctx.sourceAccount .trustlineFlagsUpdated
        (addAssetDetails [("trustor", Val.str aop.trustor)]
          (aop.toAsset ctx.sourceAccount.accountId) ""),
        addMuxedE ctx ctx.sourceAccount .trustlineFlagsUpdated
          (setTrustLineFlagDetails
            (addAssetDetails [("trustor", Val.str aop.trustor)]
              (aop.toAsset ctx.sourceAccount.accountId) "") 1 true),
        ?_, rfl, rfl, ?_, ?_, ?_⟩
      · simp [addAllowTrustEffects, ha, addTrustLineFlagsEffect, hrev]
        rfl
      · simp only [addMuxedE, mkEffect, ha, if_true]
        rw [(setTrustLineFlagDetails_lookup _ _ _).1,
          show tlfIsAuthorized 1 = true from rfl]
        rfl
      · simp only [addMuxedE, mkEffect, ha, if_true]
        rw [(setTrustLineFlagDetails_lookup _ _ _).2.1,
          show tlfIsAuthorizedToMaintainLiabilities 1 = false from rfl]
        simp only [Bool.false_eq_true, if_false, hbase.2.1]
      · simp only [addMuxedE, mkEffect]
        rw [(setTrustLineFlagDetails_lookup _ _ _).2.2,
          show tlfIsClawbackEnabled 1 = false from rfl]
        simp only [Bool.false_eq_true, if_false, hbase.2.2]
    · by_cases hm : tlfIsAuthorizedToMaintainLiabilities aop.authorize
      · refine ⟨addMuxedE ctx ctx.sourceAccount .trustlineFlagsUpdated
          (addAssetDetails [("trustor", Val.str aop.trustor)]
            (aop.toAsset ctx.sourceAccount.accountId) ""),
          addMuxedE ctx ctx.sourceAccount .trustlineFlagsUpdated
            (setTrustLineFlagDetails
              (addAssetDetails [("trustor", Val.str aop.trustor)]
                (aop.toAsset ctx.sourceAccount.accountId) "") 2 true),
          ?_, rfl, rfl, ?_, ?_, ?_⟩
        · simp [addAllowTrustEffects, ha, hm, addTrustLineFlagsEffect,
            hrev]
          rfl
        · simp only [addMuxedE, mkEffect, ha, hm, if_true,
            Bool.false_eq_true, if_false]
          rw [(setTrustLineFlagDetails_lookup _ _ _).1,
            show tlfIsAuthorized 2 = false from rfl]
          simp only [Bool.false_eq_true, if_false, hbase.1]
        · simp only [addMuxedE, mkEffect, ha, hm, if_true,
            Bool.false_eq_true, if_false]
          rw [(setTrustLineFlagDetails_lookup _ _ _).2.1,
            show tlfIsAuthorizedToMaintainLiabilities 2 = true from rfl]
          rfl
        · simp only [addMuxedE, mkEffect]
          rw [(setTrustLineFlagDetails_lookup _ _ _).2.2,
            show tlfIsClawbackEnabled 2 = false from rfl]
          simp only [Bool.false_eq_true, if_false, hbase.2.2]
      · refine ⟨addMuxedE ctx ctx.sourceAccount .trustlineFlagsUpdated
          (addAssetDetails [("trustor", Val.str aop.trustor)]
            (aop.toAsset ctx.sourceAccount.accountId) ""),
          addMuxedE ctx ctx.sourceAccount .trustlineFlagsUpdated
            (setTrustLineFlagDetails
              (addAssetDetails [("trustor", Val.str aop.trustor)]
                (aop.toAsset ctx.sourceAccount.accountId) "") 3 false),
          ?_, rfl, rfl, ?_, ?_, ?_⟩
        · simp [addAllowTrustEffects, ha, hm, addTrustLineFlagsEffect,
            hrev]
          rfl
        · simp only [addMuxedE, mkEffect, ha, hm, Bool.false_eq_true,
            if_false]
          rw [(setTrustLineFlagDetails_lookup _ _ _).1,
            show tlfIsAuthorized 3 = true from rfl]
          rfl
        · simp only [addMuxedE, mkEffect, ha, hm, Bool.false_eq_true,
            if_false]
          rw [(setTrustLineFlagDetails_lookup _ _ _).2.1,
            show tlfIsAuthorizedToMaintainLiabilities 3 = true from rfl]
          rfl
        · simp only [addMuxedE, mkEffect]
          rw [(setTrustLineFlagDetails_lookup _ _ _).2.2,
            show tlfIsClawbackEnabled 3 = false from rfl]
          simp only [Bool.false_eq_true, if_false, hbase.2.2]


/-- C7 witness: a set-trustline-flags operation with set = clawback-enabled
and clear = authorized over an operation with no changes (so the
revocation sweep is a no-op). -/
theorem c7_trustline_flags_updated_witness :
    ((addSetTrustLineFlagsEffects baseCtx wSetTLFOp).toOption.getD
        []).length = 1 ∧
    dlookup (((addSetTrustLineFlagsEffects baseCtx
        wSetTLFOp).toOption.getD []).headD
      (mkEffect baseCtx "" none .trade [])).details "authorized_flag" =
        some (.bool false) ∧
    dlookup (((addSetTrustLineFlagsEffects baseCtx
        wSetTLFOp).toOption.getD []).headD
      (mkEffect baseCtx "" none .trade [])).details
        "clawback_enabled_flag" = some (.bool true) := by
  obtain ⟨e, h1, h2, h3, h4, h5⟩ :=
    (c7_trustline_flags_updated baseCtx wAllowTrustOp wSetTLFOp
      [] rfl).1
  rw [h1]
  simp only [Except.toOption, Option.getD, List.headD]
  refine ⟨rfl, ?_, ?_⟩
  · rw [h3]; rfl
  · rw [h5]; rfl

/-- Go map assignment never produces an empty map. -/
theorem smapSet_ne_nil (m : List (String × String)) (k v : String) :
    smapSet m k v ≠ [] := by
  unfold smapSet
  split
  · rename_i hany
    intro h
    rw [List.map_eq_nil_iff] at h
    subst h
    simp at hany
  · intro h
    cases m <;> simp at h

/-- The `assetToCBID` map is empty exactly when no claimable balance was
created. -/
theorem assetToCBID_eq_nil_iff (changes : List Change) :
    assetToCBID changes = [] ↔ createdClaimableBalances changes = [] := by
  unfold assetToCBID
  have gen : ∀ (cbs : List ClaimableBalanceEntry)
      (m : List (String × String)), m ≠ [] →
      cbs.foldl (fun m cb => smapSet m cb.asset.stringCanonical
        cb.balanceId) m ≠ [] := by
    intro cbs
    induction cbs with
    | nil => intro m h; simpa using h
    | cons c rest ih =>
      intro m h
      simp only [List.foldl_cons]
      exact ih _ (smapSet_ne_nil _ _ _)
  cases hc : createdClaimableBalances changes with
  | nil => simp
  | cons c rest =>
    simp only [List.foldl_cons, hc]
    constructor
    · intro h
      exact absurd h (gen rest _ (smapSet_ne_nil _ _ _))
    · intro h
      cases h

/-- The three branches of the liquidity-pool revocation sweep: no pool
delta means no effects; a delta but no created claimable balances means
no effects; otherwise the asset-sorted created-balance effects followed
by the single revoked effect. -/
theorem lpRevoked_branches (ctx : OperationContext) :
    (getLiquidityPoolAndProductDelta ctx.changes none =
        .error .liquidityPoolChangeNotFound →
      addLiquidityPoolRevokedEffect ctx = .ok []) ∧
    (∀ r, getLiquidityPoolAndProductDelta ctx.changes none = .ok r →
      (createdClaimableBalances ctx.changes = [] →
        addLiquidityPoolRevokedEffect ctx = .ok []) ∧
      (createdClaimableBalances ctx.changes ≠ [] →
        addLiquidityPoolRevokedEffect ctx = .ok
          (((List.insertionSort cbLE
              (createdClaimableBalances ctx.changes)).map
            (addClaimableBalanceEntryCreatedEffects ctx
              ctx.sourceAccount)).flatten ++
           [addMuxedE ctx ctx.sourceAccount .liquidityPoolRevoked
             [("liquidity_pool", liquidityPoolDetailsV (r.1.getD default)),
              ("reserves_revoked", .list (reservesRevoked
                ((r.1.getD default).body.mustConstantProduct) r.2
                (assetToCBID ctx.changes))),
              ("shares_revoked",
               .str (amountString (-r.2.totalPoolShares)))]]))) := by
  constructor
  · intro h
    simp only [addLiquidityPoolRevokedEffect, h]
  · intro r hr
    constructor
    · intro hcb
      have hempty : (assetToCBID ctx.changes).isEmpty = true := by
        rw [List.isEmpty_iff, assetToCBID_eq_nil_iff]
        exact hcb
      simp only [addLiquidityPoolRevokedEffect, hr, hempty, if_true]
    · intro hcb
      have hempty : (assetToCBID ctx.changes).isEmpty = false := by
        rw [Bool.eq_false_iff]
        intro hcontra
        rw [List.isEmpty_iff, assetToCBID_eq_nil_iff] at hcontra
        exact hcb hcontra
      simp only [addLiquidityPoolRevokedEffect, hr, hempty,
        Bool.false_eq_true, if_false]

/-- C6 counterexample: an invocation of the revocation sweep that finds a
pool delta but no newly created claimable balance emits nothing — the
claim as stated would require a LiquidityPoolRevoked effect whenever a
delta is found. -/
theorem c6_counterexample_no_revoked_effect :
    getLiquidityPoolAndProductDelta ctxRevokeNoCB.changes none =
      .ok (some wPool, ⟨-100, -200, -70⟩) ∧
    addLiquidityPoolRevokedEffect ctxRevokeNoCB = .ok [] :=
  ⟨rfl, rfl⟩

/-- C6 (amended): the revocation sweep is a no-op when the pool-delta
lookup with no specific id finds nothing, and also when no claimable
balance was newly created; otherwise it emits one created effect per
collected balance, in canonical-asset-sorted order (not creation order),
followed by a single LiquidityPoolRevoked effect listing per matching
asset the negated reserve delta with the matching balance id, plus the
negated total-shares delta. -/
theorem c6_revocation_sweep (ctx : OperationContext) :
    (getLiquidityPoolAndProductDelta ctx.changes none =
        .error .liquidityPoolChangeNotFound →
      addLiquidityPoolRevokedEffect ctx = .ok []) ∧
    (∀ r, getLiquidityPoolAndProductDelta ctx.changes none = .ok r →
      (createdClaimableBalances ctx.changes = [] →
        addLiquidityPoolRevokedEffect ctx = .ok []) ∧
      (createdClaimableBalances ctx.changes ≠ [] →
        (List.insertionSort cbLE
          (createdClaimableBalances ctx.changes)).Perm
            (createdClaimableBalances ctx.changes) ∧
        List.Sorted cbLE (List.insertionSort cbLE
          (createdClaimableBalances ctx.changes)) ∧
        addLiquidityPoolRevokedEffect ctx = .ok
          (((List.insertionSort cbLE
              (createdClaimableBalances ctx.changes)).map
            (addClaimableBalanceEntryCreatedEffects ctx
              ctx.sourceAccount)).flatten ++
           [addMuxedE ctx ctx.sourceAccount .liquidityPoolRevoked
             [("liquidity_pool",
               liquidityPoolDetailsV (r.1.getD default)),
              ("reserves_revoked", .list (reservesRevoked
                ((r.1.getD default).body.mustConstantProduct) r.2
                (assetToCBID ctx.changes))),
              ("shares_revoked",
               .str (amountString (-r.2.totalPoolShares)))]]))) :=
  ⟨(lpRevoked_branches ctx).1, fun r hr =>
    ⟨((lpRevoked_branches ctx).2 r hr).1, fun hcb =>
      ⟨List.perm_insertionSort _ _, List.sorted_insertionSort _ _,
        ((lpRevoked_branches ctx).2 r hr).2 hcb⟩⟩⟩

/-- C6 witness: a pool removal with two created claimable balances listed
USD-before-EUR in the changes; the sweep emits them EUR-before-USD
(canonical asset order), then the revoked effect. -/
theorem c6_revocation_sweep_witness :
    createdClaimableBalances ctxRevokeTwoCB.changes = [cbUsd, cbEur] ∧
    addLiquidityPoolRevokedEffect ctxRevokeTwoCB = .ok
      (((List.insertionSort cbLE
          (createdClaimableBalances ctxRevokeTwoCB.changes)).map
        (addClaimableBalanceEntryCreatedEffects ctxRevokeTwoCB
          ctxRevokeTwoCB.sourceAccount)).flatten ++
       [addMuxedE ctxRevokeTwoCB ctxRevokeTwoCB.sourceAccount
         .liquidityPoolRevoked
         [("liquidity_pool", liquidityPoolDetailsV wPool),
          ("reserves_revoked", .list (reservesRevoked
            (wPool.body.mustConstantProduct) ⟨-100, -200, -70⟩
            (assetToCBID ctxRevokeTwoCB.changes))),
          ("shares_revoked", .str (amountString (-(-70 : Int))))]]) := by
  constructor
  · rfl
  · exact (((c6_revocation_sweep ctxRevokeTwoCB).2
      (some wPool, ⟨-100, -200, -70⟩) rfl).2 (by decide)).2.2

/-- C10: when a pool delta is found but the operation created no
claimable balance, the revocation sweep emits nothing and no error; and
the revoked effect's reserves_revoked detail contains entries only for
pool assets whose canonical string has a matching created balance,
omitting a pool asset without one. -/
theorem c10_revoked_reserves_only_matching (ctx : OperationContext)
    (r : Option LiquidityPoolEntry × LiquidityPoolDelta)
    (hdelta : getLiquidityPoolAndProductDelta ctx.changes none = .ok r) :
    (createdClaimableBalances ctx.changes = [] →
      addLiquidityPoolRevokedEffect ctx = .ok []) ∧
    (createdClaimableBalances ctx.changes ≠ [] →
      ∃ es, addLiquidityPoolRevokedEffect ctx = .ok es ∧ es ≠ [] ∧
        (es.getLastD (mkEffect ctx "" none .trade [])).effType =
          .liquidityPoolRevoked ∧
        dlookup (es.getLastD (mkEffect ctx "" none .trade [])).details
            "reserves_revoked" =
          some (.list (reservesRevoked
            ((r.1.getD default).body.mustConstantProduct) r.2
            (assetToCBID ctx.changes)))) ∧
    (∀ cp delta m, ∀ v ∈ reservesRevoked cp delta m,
      ∃ a amt cbID,
        v = Val.obj [("asset", .str a), ("amount", .str amt),
          ("claimable_balance_id", .str cbID)] ∧
        (a = cp.assetA.stringCanonical ∨
          a = cp.assetB.stringCanonical) ∧
        List.lookup a m = some cbID) := by
  refine ⟨((lpRevoked_branches ctx).2 r hdelta).1, ?_, ?_⟩
  · intro hcb
    refine ⟨_, ((lpRevoked_branches ctx).2 r hdelta).2 hcb,
      by simp, ?_, ?_⟩
    · rw [List.getLastD_concat]
      rfl
    · rw [List.getLastD_concat]
      rfl
  · intro cp delta m v hv
    rw [reservesRevoked, List.mem_filterMap] at hv
    obtain ⟨aa, haa, hf⟩ := hv
    rcases hl : List.lookup aa.1 m with _ | cbID
    · rw [hl] at hf
      cases hf
    · rw [hl] at hf
      refine ⟨aa.1, aa.2, cbID, (Option.some.inj hf).symm, ?_, hl⟩
      simp only [List.mem_cons, List.mem_singleton,
        List.not_mem_nil, or_false] at haa
      rcases haa with h | h
      · left; rw [h]
      · right; rw [h]

/-- C10 witness: one created claimable balance matching only the pool's
second asset — reserves_revoked holds exactly one entry, for that
asset. -/
theorem c10_revoked_reserves_only_matching_witness :
    reservesRevoked (wPool.body.mustConstantProduct) ⟨-100, -200, -70⟩
        (assetToCBID ctxRevokeOneCB.changes) =
      [Val.obj [("asset", Val.str "USD:GISSUER"),
        ("amount", Val.str (amountString 200)),
        ("claimable_balance_id", Val.str "cbUSD")]] ∧
    dlookup ((((addLiquidityPoolRevokedEffect
        ctxRevokeOneCB).toOption.getD []).getLastD
      (mkEffect ctxRevokeOneCB "" none .trade [])).details)
        "reserves_revoked" =
      some (.list (reservesRevoked (wPool.body.mustConstantProduct)
        ⟨-100, -200, -70⟩ (assetToCBID ctxRevokeOneCB.changes))) := by
  obtain ⟨es, h1, h2, h3, h4⟩ :=
    (c10_revoked_reserves_only_matching ctxRevokeOneCB
      (some wPool, ⟨-100, -200, -70⟩) rfl).2.1 (by decide)
  refine ⟨rfl, ?_⟩
  rw [h1]
  simpa using h4

/-- Decimal digit characters are injective below the base. -/
theorem digitChar_inj (a b : Nat) (ha : a < 10) (hb : b < 10)
    (h : digitChar a = digitChar b) : a = b := by
  unfold digitChar at h
  interval_cases a <;> interval_cases b <;>
    first | rfl | (exact absurd h (by decide))

/-- The minus-sign character is not a decimal digit character. -/
theorem digitChar_ne_dash (d : Nat) (hd : d < 10) :
    digitChar d ≠ Char.ofNat 45 := by
  unfold digitChar
  interval_cases d <;> decide

/-- The decimal representation of a natural number contains no minus
sign. -/
theorem natDigits_no_dash (n : Nat) : Char.ofNat 45 ∉ natDigits n := by
  unfold natDigits
  split
  · intro h
    simp only [List.mem_singleton] at h
    exact digitChar_ne_dash 0 (by omega) h.symm
  · intro h
    rw [List.mem_reverse, List.mem_map] at h
    obtain ⟨d, hd, hchar⟩ := h
    exact digitChar_ne_dash d (Nat.digits_lt_base (by omega) hd) hchar

/-- The decimal representation of a natural number determines it. -/
theorem natDigits_injective (a b : Nat) (h : natDigits a = natDigits b) :
    a = b := by
  have mapInj : ∀ l1 l2 : List Nat, (∀ d ∈ l1, d < 10) →
      (∀ d ∈ l2, d < 10) → l1.map digitChar = l2.map digitChar →
      l1 = l2 := by
    intro l1
    induction l1 with
    | nil => intro l2 _ _ hm; cases l2 <;> simp_all
    | cons d t ih =>
      intro l2 h1 h2 hm
      cases l2 with
      | nil => simp at hm
      | cons d2 t2 =>
        simp only [List.map_cons, List.cons.injEq] at hm
        have hd := digitChar_inj d d2 (h1 d (by simp))
          (h2 d2 (by simp)) hm.1
        rw [hd, ih t2 (fun x hx => h1 x (by simp [hx]))
          (fun x hx => h2 x (by simp [hx])) hm.2]
  unfold natDigits at h
  by_cases ha : a = 0 <;> by_cases hb : b = 0
  · rw [ha, hb]
  · rw [if_pos ha, if_neg hb] at h
    have : (Nat.digits 10 b).map digitChar = [digitChar 0] := by
      rw [← List.reverse_reverse (List.map digitChar (Nat.digits 10 b)),
        ← h]
      rfl
    rcases hdig : Nat.digits 10 b with _ | ⟨d, rest⟩
    · exact absurd hdig (Nat.digits_ne_nil_iff_ne_zero.mpr hb)
    · rw [hdig] at this
      simp only [List.map_cons, List.cons.injEq] at this
      have hrest : rest = [] := by
        rcases rest with _ | _
        · rfl
        · simp at this
      have hd0 : d = 0 := digitChar_inj d 0
        (Nat.digits_lt_base (by omega) (by rw [hdig]; simp)) (by omega)
        this.1
      have := Nat.ofDigits_digits 10 b
      rw [hdig, hrest, hd0] at this
      simp [Nat.ofDigits] at this
      omega
  · rw [if_neg ha, if_pos hb] at h
    have : (Nat.digits 10 a).map digitChar = [digitChar 0] := by
      rw [← List.reverse_reverse (List.map digitChar (Nat.digits 10 a)),
        h]
      rfl
    rcases hdig : Nat.digits 10 a with _ | ⟨d, rest⟩
    · exact absurd hdig (Nat.digits_ne_nil_iff_ne_zero.mpr ha)
    · rw [hdig] at this
      simp only [List.map_cons, List.cons.injEq] at this
      have hrest : rest = [] := by
        rcases rest with _ | _
        · rfl
        · simp at this
      have hd0 : d = 0 := digitChar_inj d 0
        (Nat.digits_lt_base (by omega) (by rw [hdig]; simp)) (by omega)
        this.1
      have := Nat.ofDigits_digits 10 a
      rw [hdig, hrest, hd0] at this
      simp [Nat.ofDigits] at this
      omega
  · rw [if_neg ha, if_neg hb] at h
    have hmaps := List.reverse_injective h
    have hdigs := mapInj _ _
      (fun d hd => Nat.digits_lt_base (by omega) hd)
      (fun d hd => Nat.digits_lt_base (by omega) hd) hmaps
    have h1 := Nat.ofDigits_digits 10 a
    have h2 := Nat.ofDigits_digits 10 b
    rw [← h1, ← h2, hdigs]

/-- Splitting at the unique separator: two dash-separated
concatenations of dash-free lists agree only componentwise. -/
theorem append_dash_inj : ∀ l1 l2 r1 r2 : List Char,
    Char.ofNat 45 ∉ l1 → Char.ofNat 45 ∉ l2 →
    l1 ++ Char.ofNat 45 :: r1 = l2 ++ Char.ofNat 45 :: r2 →
    l1 = l2 ∧ r1 = r2 := by
  intro l1
  induction l1 with
  | nil =>
    intro l2 r1 r2 _ h2 h
    cases l2 with
    | nil => simpa using h
    | cons c t =>
      simp only [List.nil_append, List.cons_append,
        List.cons.injEq] at h
      exact absurd (by rw [h.1]; simp : Char.ofNat 45 ∈ c :: t) h2
  | cons c t ih =>
    intro l2 r1 r2 h1 h2 h
    cases l2 with
    | nil =>
      simp only [List.nil_append, List.cons_append,
        List.cons.injEq] at h
      exact absurd (by rw [← h.1]; simp : Char.ofNat 45 ∈ c :: t) h1
    | cons c2 t2 =>
      simp only [List.cons_append, List.cons.injEq] at h
      obtain ⟨ht, hr⟩ := ih t2 r1 r2 (fun hm => h1 (by simp [hm]))
        (fun hm => h2 (by simp [hm])) h.2
      exact ⟨by rw [h.1, ht], hr⟩

/-- The composite effect id string determines the (non-negative)
operation id and the effect index. -/
theorem effectIdString_inj (a b : Int) (i j : Nat) (ha : 0 ≤ a)
    (hb : 0 ≤ b) (h : effectIdString a i = effectIdString b j) :
    a = b ∧ i = j := by
  unfold effectIdString at h
  injection h with h
  unfold intDigits at h
  rw [if_neg (not_lt.mpr ha), if_neg (not_lt.mpr hb)] at h
  obtain ⟨hop, hidx⟩ := append_dash_inj _ _ _ _
    (natDigits_no_dash _) (natDigits_no_dash _) h
  have h1 := natDigits_injective _ _ hop
  have h2 := natDigits_injective _ _ hidx
  omega

/-- Every effect of the per-claim trade emission carries the operation's
id. -/
theorem opID_addClaimTradeEffects (ctx : OperationContext)
    (buyer : MuxedAccount) (claim : ClaimAtom) (ipp : Bool) :
    ∀ e ∈ addClaimTradeEffects ctx buyer claim ipp,
      e.operationID = ctx.opID := by
  intro e he
  rw [addClaimTradeEffects_eq_spec] at he
  unfold specClaimTradeEffects at he
  rw [List.mem_flatMap] at he
  obtain ⟨k, _, hk⟩ := he
  simp only [List.mem_cons, List.not_mem_nil, or_false] at hk
  rcases hk with rfl | rfl <;> rfl

/-- Inversion of a successful `Except` bind. -/
theorem except_bind_ok {α β : Type} {x : Except EffErr α}
    {f : α → Except EffErr β} {b : β} (h : (x >>= f) = .ok b) :
    ∃ a, x = .ok a ∧ f a = .ok b := by
  cases x with
  | error e =>
    exact absurd h (by simp [Bind.bind, Except.bind])
  | ok a =>
    refine ⟨a, rfl, ?_⟩
    simpa [Bind.bind, Except.bind] using h

/-- Every effect of the trade pass carries the operation's id. -/
theorem opID_addIngestTradeEffects (ctx : OperationContext)
    (buyer : MuxedAccount) (claims : List ClaimAtom) (ipp : Bool) :
    ∀ es, addIngestTradeEffects ctx buyer claims ipp = .ok es →
      ∀ e ∈ es, e.operationID = ctx.opID := by
  induction claims with
  | nil =>
    intro es hes
    cases hes
    simp
  | cons claim rest ih =>
    intro es hes
    unfold addIngestTradeEffects at hes
    split at hes
    · exact ih es hes
    · cases claim with
      | liquidityPool lpClaim =>
        dsimp only at hes
        obtain ⟨es1, hlp, hes⟩ := except_bind_ok hes
        obtain ⟨es2, hrest, hes⟩ := except_bind_ok hes
        cases hes
        intro e he
        rw [List.mem_append] at he
        rcases he with he | he
        · unfold addClaimLiquidityPoolTradeEffect at hlp
          obtain ⟨r, _, hlp⟩ := except_bind_ok hlp
          cases hlp
          simp only [List.mem_singleton] at he
          rw [he]
          rfl
        · exact ih es2 hrest e he
      | orderBook a =>
        dsimp only at hes
        obtain ⟨es2, hrest, hes⟩ := except_bind_ok hes
        cases hes
        intro e he
        rw [List.mem_append] at he
        rcases he with he | he
        · exact opID_addClaimTradeEffects ctx buyer _ ipp e he
        · exact ih es2 hrest e he

/-- Every effect of the liquidity-pool revocation sweep carries the
operation's id. -/
theorem opID_addLiquidityPoolRevokedEffect (ctx : OperationContext) :
    ∀ es, addLiquidityPoolRevokedEffect ctx = .ok es →
      ∀ e ∈ es, e.operationID = ctx.opID := by
  intro es hes
  unfold addLiquidityPoolRevokedEffect at hes
  split at hes
  · cases hes; simp
  · cases hes
  · split at hes
    · cases hes; simp
    · cases hes
      intro e he
      rw [List.mem_append] at he
      rcases he with he | he
      · rw [List.mem_flatten] at he
        obtain ⟨l, hl, hel⟩ := he
        rw [List.mem_map] at hl
        obtain ⟨cb, _, rfl⟩ := hl
        simp only [addClaimableBalanceEntryCreatedEffects,
          List.mem_singleton] at hel
        rw [hel]
        rfl
      · simp only [List.mem_singleton] at he
        rw [he]
        rfl

/-- Every effect of `addTrustLineFlagsEffect` carries the operation's
id. -/
theorem opID_addTrustLineFlagsEffect (ctx : OperationContext)
    (acc : MuxedAccount) (tr : String) (a : Asset) (sf cf : Option Nat) :
    ∀ e ∈ addTrustLineFlagsEffect ctx acc tr a sf cf,
      e.operationID = ctx.opID := by
  intro e he
  unfold addTrustLineFlagsEffect at he
  rcases sf with _ | f1 <;> rcases cf with _ | f2 <;>
    simp only [Option.isSome_none, Option.isSome_some, Bool.or_self,
      Bool.false_or, Bool.or_false, Bool.or_true, Bool.true_or, if_true,
      Bool.false_eq_true, if_false] at he
  · exact absurd he (List.not_mem_nil e)
  all_goals
    simp only [List.mem_singleton] at he
    rw [he]
    rfl

/-- Every effect of the per-operation-kind generator carries the
operation's id. -/
theorem opID_dispatchGenerator (ctx : OperationContext) :
    ∀ es, dispatchGenerator ctx = .ok es →
      ∀ e ∈ es, e.operationID = ctx.opID := by
  intro es hes
  unfold dispatchGenerator at hes
  split at hes
  · cases hes
    intro e he
    simp only [addPaymentEffects, List.mem_cons, List.not_mem_nil,
      or_false] at he
    rcases he with rfl | rfl <;> rfl
  · rename_i op
    unfold pathPaymentStrictReceiveEffects at hes
    obtain ⟨r, hr, hes⟩ := except_bind_ok hes
    obtain ⟨s, hs, hes⟩ := except_bind_ok hes
    obtain ⟨trades, ht, hes⟩ := except_bind_ok hes
    cases hes
    intro e he
    simp only [List.mem_cons] at he
    rcases he with rfl | rfl | he
    · rfl
    · rfl
    · exact opID_addIngestTradeEffects ctx _ _ _ trades ht e he
  · rename_i op
    unfold addPathPaymentStrictSendEffects at hes
    obtain ⟨r, hr, hes⟩ := except_bind_ok hes
    obtain ⟨s, hs, hes⟩ := except_bind_ok hes
    obtain ⟨trades, ht, hes⟩ := except_bind_ok hes
    cases hes
    intro e he
    simp only [List.mem_cons] at he
    rcases he with rfl | rfl | he
    · rfl
    · rfl
    · exact opID_addIngestTradeEffects ctx _ _ _ trades ht e he
  · unfold addManageSellOfferEffects at hes
    obtain ⟨r, hr, hes⟩ := except_bind_ok hes
    obtain ⟨s, hs, hes⟩ := except_bind_ok hes
    exact opID_addIngestTradeEffects ctx _ _ _ es hes
  · unfold addManageBuyOfferEffects at hes
    obtain ⟨r, hr, hes⟩ := except_bind_ok hes
    obtain ⟨s, hs, hes⟩ := except_bind_ok hes
    exact opID_addIngestTradeEffects ctx _ _ _ es hes
  · unfold addCreatePassiveSellOfferEffect at hes
    dsimp only at hes
    split at hes <;>
    · obtain ⟨r, hr, hes⟩ := except_bind_ok hes
      obtain ⟨s, hs, hes⟩ := except_bind_ok hes
      obtain ⟨y, hy, hes⟩ := except_bind_ok hes
      exact opID_addIngestTradeEffects ctx _ _ _ es hes
  · rename_i op
    unfold addAllowTrustEffects at hes
    obtain ⟨rev, hrev, hes⟩ := except_bind_ok hes
    cases hes
    intro e he
    simp only [List.mem_cons, List.mem_append] at he
    rcases he with (rfl | he) | he
    · rfl
    · split at he <;>
        first
        | exact opID_addTrustLineFlagsEffect ctx _ _ _ _ _ e he
        | (split at he <;>
            exact opID_addTrustLineFlagsEffect ctx _ _ _ _ _ e he)
    · exact opID_addLiquidityPoolRevokedEffect ctx rev hrev e he
  · rename_i op
    unfold addSetTrustLineFlagsEffects at hes
    obtain ⟨rev, hrev, hes⟩ := except_bind_ok hes
    cases hes
    intro e he
    rw [List.mem_append] at he
    rcases he with he | he
    · exact opID_addTrustLineFlagsEffect ctx _ _ _ _ _ e he
    · exact opID_addLiquidityPoolRevokedEffect ctx rev hrev e he
  · cases hes; simp
  · cases hes; simp
  · cases hes; simp
  · cases hes

/-- Every effect of the entry-sponsorship sweep carries the operation's
id. -/
theorem opID_addLedgerEntrySponsorshipEffects (ctx : OperationContext) :
    ∀ c es, addLedgerEntrySponsorshipEffects ctx c = .ok es →
      ∀ e ∈ es, e.operationID = ctx.opID := by
  intro c es hes
  unfold addLedgerEntrySponsorshipEffects at hes
  rcases h1 : sponsoringEffectsTable c.type with _ | tbl <;>
    rw [h1] at hes
  · cases hes; simp
  · dsimp only at hes
    rcases hpre : c.pre.bind (fun x => x.sponsoringID) with _ | s1 <;>
      rcases hpost : c.post.bind (fun x => x.sponsoringID) with _ | s2 <;>
      rw [hpre, hpost] at hes <;> dsimp only at hes
    · cases hes; simp
    · cases htype : c.type <;> rw [htype] at hes <;> dsimp only at hes <;>
        first
        | (cases hes
           intro e he
           simp only [List.mem_singleton] at he
           rw [he]
           rfl)
        | cases hes
    · cases htype : c.type <;> rw [htype] at hes <;> dsimp only at hes <;>
        first
        | (cases hes
           intro e he
           simp only [List.mem_singleton] at he
           rw [he]
           rfl)
        | cases hes
    · by_cases hss : s1 = s2
      · rw [if_pos hss] at hes
        dsimp only at hes
        cases hes
        simp
      · rw [if_neg hss] at hes
        dsimp only at hes
        cases htype : c.type <;> rw [htype] at hes <;>
          dsimp only at hes <;>
          first
          | (cases hes
             intro e he
             simp only [List.mem_singleton] at he
             rw [he]
             rfl)
          | cases hes

/-- Every effect of the signer-sponsorship sweep carries the operation's
id. -/
theorem opID_addSignerSponsorshipEffects (ctx : OperationContext) :
    ∀ c, ∀ e ∈ addSignerSponsorshipEffects ctx c,
      e.operationID = ctx.opID := by
  intro c e he
  unfold addSignerSponsorshipEffects at he
  split at he
  · cases he
  · rw [List.mem_flatten] at he
    obtain ⟨l, hl, hel⟩ := he
    rw [List.mem_map] at hl
    obtain ⟨signer, _, rfl⟩ := hl
    split at hel
    · cases hel
    · simp only [List.mem_singleton] at hel
      rw [hel]
      rfl
    · simp only [List.mem_singleton] at hel
      rw [hel]
      rfl
    · split at hel
      · cases hel
      · simp only [List.mem_singleton] at hel
        rw [hel]
        rfl

/-- Every effect of the per-change sponsorship loop carries the
operation's id. -/
theorem opID_sponsorshipSweep (ctx : OperationContext) :
    ∀ cs es, sponsorshipSweep ctx cs = .ok es →
      ∀ e ∈ es, e.operationID = ctx.opID := by
  intro cs
  induction cs with
  | nil =>
    intro es hes
    cases hes
    simp
  | cons c rest ih =>
    intro es hes
    unfold sponsorshipSweep at hes
    obtain ⟨es1, h1, hes⟩ := except_bind_ok hes
    obtain ⟨es2, h2, hes⟩ := except_bind_ok hes
    cases hes
    intro e he
    simp only [List.mem_append] at he
    rcases he with (he | he) | he
    · exact opID_addLedgerEntrySponsorshipEffects ctx c es1 h1 e he
    · exact opID_addSignerSponsorshipEffects ctx c e he
    · exact ih es2 h2 e he

/-- Every effect of the liquidity-pool lifecycle sweep carries the
operation's id. -/
theorem opID_lifecycle (ctx : OperationContext) :
    ∀ c, ∀ e ∈ addLedgerEntryLiquidityPoolEffects ctx c,
      e.operationID = ctx.opID := by
  intro c e he
  unfold addLedgerEntryLiquidityPoolEffects at he
  split at he
  · cases he
  · split at he
    · simp only [List.mem_singleton] at he
      rw [he]
      rfl
    · simp only [List.mem_singleton] at he
      rw [he]
      rfl
    · cases he


/-- The finalizer does not change the number of effects. -/
theorem stampFrom_length (ctx : OperationContext) :
    ∀ (l : List EffectOutput) (n : Nat),
      (stampFrom ctx n l).length = l.length := by
  intro l
  induction l with
  | nil => intro n; rfl
  | cons e rest ih =>
    intro n
    simp [stampFrom, ih]

/-- Element-wise description of the finalizer: the i-th stamped effect
keeps its operation id and gains the ledger stamp, index `n + i` and the
composite id string. -/
theorem stampFrom_get (ctx : OperationContext) :
    ∀ (l : List EffectOutput) (n i : Nat) (h : i < l.length)
      (h2 : i < (stampFrom ctx n l).length),
      ((stampFrom ctx n l).get ⟨i, h2⟩).effectIndex = n + i ∧
      ((stampFrom ctx n l).get ⟨i, h2⟩).ledgerSequence =
        ctx.ledgerSequence ∧
      ((stampFrom ctx n l).get ⟨i, h2⟩).ledgerClosed = ctx.ledgerClosed ∧
      ((stampFrom ctx n l).get ⟨i, h2⟩).operationID =
        (l.get ⟨i, h⟩).operationID ∧
      ((stampFrom ctx n l).get ⟨i, h2⟩).effectId =
        effectIdString ((l.get ⟨i, h⟩).operationID) (n + i) := by
  intro l
  induction l with
  | nil =>
    intro n i h
    exact absurd h (by simp)
  | cons e rest ih =>
    intro n i h h2
    cases i with
    | zero => exact ⟨rfl, rfl, rfl, rfl, rfl⟩
    | succ j =>
      have h' : j < rest.length := by simpa using h
      have h2' : j < (stampFrom ctx (n + 1) rest).length := by
        rw [stampFrom_length]
        exact h'
      have hres := ih (n + 1) j h' h2'
      have hEq : n + 1 + j = n + (j + 1) := by omega
      rw [hEq] at hres
      exact hres

/-- A successful derivation's effects carry the ledger stamp, contiguous
indices from zero, and the composite id built from the operation's id. -/
theorem effects_stamped (ctx : OperationContext) (es : List EffectOutput)
    (h : effects ctx = .ok es) :
    ∀ i (hi : i < es.length),
      (es.get ⟨i, hi⟩).ledgerSequence = ctx.ledgerSequence ∧
      (es.get ⟨i, hi⟩).ledgerClosed = ctx.ledgerClosed ∧
      (es.get ⟨i, hi⟩).effectIndex = i ∧
      (es.get ⟨i, hi⟩).effectId = effectIdString ctx.opID i := by
  unfold effects at h
  split at h
  · cases h
    intro i hi
    exact absurd hi (by simp)
  · obtain ⟨gen, hgen, h⟩ := except_bind_ok h
    obtain ⟨spons, hspons, h⟩ := except_bind_ok h
    cases h
    intro i hi
    have hbase : ∀ e ∈ gen ++ spons ++
        (ctx.changes.map (addLedgerEntryLiquidityPoolEffects ctx)).flatten,
        e.operationID = ctx.opID := by
      intro e he
      rw [List.mem_append] at he
      rcases he with he | he
      · rw [List.mem_append] at he
        rcases he with he | he
        · exact opID_dispatchGenerator ctx gen hgen e he
        · exact opID_sponsorshipSweep ctx ctx.changes spons hspons e he
      · rw [List.mem_flatten] at he
        obtain ⟨l, hl, hel⟩ := he
        rw [List.mem_map] at hl
        obtain ⟨c, _, rfl⟩ := hl
        exact opID_lifecycle ctx c e hel
    have hlen : i < (gen ++ spons ++
        (ctx.changes.map
          (addLedgerEntryLiquidityPoolEffects ctx)).flatten).length := by
      rw [stampFrom_length] at hi
      exact hi
    obtain ⟨f1, f2, f3, f4, f5⟩ := stampFrom_get ctx _ 0 i hlen hi
    refine ⟨f2, f3, by simpa using f1, ?_⟩
    rw [f5, hbase _ (List.get_mem _ _ hlen)]
    simp

/-- C8: every effect of a successful derivation is stamped with the
operation's ledger sequence and close time; effect indices are exactly
0..n-1 in order; each effect id is the string
`{operationId}-{effectIndex}`; and effect ids of two distinct operations
of one ledger never collide (their total-order operation ids differ). -/
theorem c8_effect_ids (ctx1 ctx2 : OperationContext)
    (es1 es2 : List EffectOutput)
    (h1 : effects ctx1 = .ok es1) (h2 : effects ctx2 = .ok es2)
    (hseq : ctx1.ledgerSequence = ctx2.ledgerSequence)
    (hdiff : ctx1.txIndex ≠ ctx2.txIndex ∨ ctx1.index ≠ ctx2.index)
    (hop1 : ctx1.index + 1 < 2 ^ 12) (hop2 : ctx2.index + 1 < 2 ^ 12) :
    (∀ i (hi : i < es1.length),
      (es1.get ⟨i, hi⟩).ledgerSequence = ctx1.ledgerSequence ∧
      (es1.get ⟨i, hi⟩).ledgerClosed = ctx1.ledgerClosed ∧
      (es1.get ⟨i, hi⟩).effectIndex = i ∧
      (es1.get ⟨i, hi⟩).effectId = effectIdString ctx1.opID i) ∧
    (∀ i j (hi : i < es1.length) (hj : j < es1.length), i ≠ j →
      (es1.get ⟨i, hi⟩).effectId ≠ (es1.get ⟨j, hj⟩).effectId) ∧
    (∀ e1 ∈ es1, ∀ e2 ∈ es2, e1.effectId ≠ e2.effectId) := by
  have nonneg : ∀ ctx : OperationContext, 0 ≤ ctx.opID := by
    intro ctx
    unfold OperationContext.opID toid
    exact Int.natCast_nonneg _
  refine ⟨effects_stamped ctx1 es1 h1, ?_, ?_⟩
  · intro i j hi hj hne heq
    rw [(effects_stamped ctx1 es1 h1 i hi).2.2.2,
      (effects_stamped ctx1 es1 h1 j hj).2.2.2] at heq
    exact hne (effectIdString_inj _ _ _ _ (nonneg ctx1) (nonneg ctx1)
      heq).2
  · intro e1 he1 e2 he2 heq
    obtain ⟨⟨i, hi⟩, rfl⟩ := List.mem_iff_get.mp he1
    obtain ⟨⟨j, hj⟩, rfl⟩ := List.mem_iff_get.mp he2
    rw [(effects_stamped ctx1 es1 h1 i hi).2.2.2,
      (effects_stamped ctx2 es2 h2 j hj).2.2.2] at heq
    have hids := (effectIdString_inj _ _ _ _ (nonneg ctx1) (nonneg ctx2)
      heq).1
    unfold OperationContext.opID toid at hids
    have hnat : ctx1.ledgerSequence * 2 ^ 32 + ctx1.txIndex * 2 ^ 12 +
        (ctx1.index + 1) = ctx2.ledgerSequence * 2 ^ 32 +
        ctx2.txIndex * 2 ^ 12 + (ctx2.index + 1) := by
      exact_mod_cast hids
    rcases hdiff with hd | hd <;> omega

/-- C8 witness: the first effects of two different operations (different
transaction index) in the same ledger have different effect ids. -/
theorem c8_effect_ids_witness :
    (((effects baseCtx).toOption.getD []).headD
      (mkEffect baseCtx "" none .trade [])).effectId ≠
    (((effects ctxOtherOp).toOption.getD []).headD
      (mkEffect baseCtx "" none .trade [])).effectId := by
  have h1 : effects baseCtx = .ok ((effects baseCtx).toOption.getD []) :=
    rfl
  have h2 : effects ctxOtherOp =
      .ok ((effects ctxOtherOp).toOption.getD []) := rfl
  have hl1 : ((effects baseCtx).toOption.getD []).length = 8 := rfl
  have hl2 : ((effects ctxOtherOp).toOption.getD []).length = 2 := rfl
  have hn1 : ((effects baseCtx).toOption.getD []) ≠ [] := by
    intro hc
    rw [hc] at hl1
    cases hl1
  have hn2 : ((effects ctxOtherOp).toOption.getD []) ≠ [] := by
    intro hc
    rw [hc] at hl2
    cases hl2
  have hm1 : (((effects baseCtx).toOption.getD []).headD
      (mkEffect baseCtx "" none .trade [])) ∈
      ((effects baseCtx).toOption.getD []) := by
    rcases hLL : (effects baseCtx).toOption.getD [] with _ | ⟨a, t⟩
    · exact absurd hLL hn1
    · simp
  have hm2 : (((effects ctxOtherOp).toOption.getD []).headD
      (mkEffect baseCtx "" none .trade [])) ∈
      ((effects ctxOtherOp).toOption.getD []) := by
    rcases hLL : (effects ctxOtherOp).toOption.getD [] with _ | ⟨a, t⟩
    · exact absurd hLL hn2
    · simp
  exact (c8_effect_ids baseCtx ctxOtherOp _ _ h1 h2 rfl
    (Or.inl (by decide)) (by decide) (by decide)).2.2 _ hm1 _ hm2



/-! ## Congruence infrastructure for the determinism claim -/

theorem equiv_mustAccount_accountId {d e : LedgerEntryData}
    (h : d.equiv e) : d.mustAccount.accountId = e.mustAccount.accountId := by
  cases d <;> cases e <;>
    simp_all [LedgerEntryData.equiv, LedgerEntryData.mustAccount,
      AccountEntry.equiv]

theorem equiv_mustTrustLine {d e : LedgerEntryData}
    (h : d.equiv e) : d.mustTrustLine = e.mustTrustLine := by
  cases d <;> cases e <;>
    simp_all [LedgerEntryData.equiv, LedgerEntryData.mustTrustLine]

theorem equiv_mustData {d e : LedgerEntryData}
    (h : d.equiv e) : d.mustData = e.mustData := by
  cases d <;> cases e <;>
    simp_all [LedgerEntryData.equiv, LedgerEntryData.mustData]

theorem equiv_mustClaimableBalance {d e : LedgerEntryData}
    (h : d.equiv e) : d.mustClaimableBalance = e.mustClaimableBalance := by
  cases d <;> cases e <;>
    simp_all [LedgerEntryData.equiv, LedgerEntryData.mustClaimableBalance]

theorem equiv_mustLiquidityPool {d e : LedgerEntryData}
    (h : d.equiv e) : d.mustLiquidityPool = e.mustLiquidityPool := by
  cases d <;> cases e <;>
    simp_all [LedgerEntryData.equiv, LedgerEntryData.mustLiquidityPool]

theorem equiv_signers_perm {d e : LedgerEntryData} (h : d.equiv e) :
    d.mustAccount.signerSponsors.Perm e.mustAccount.signerSponsors := by
  cases d <;> cases e <;>
    simp_all [LedgerEntryData.equiv, LedgerEntryData.mustAccount,
      AccountEntry.equiv]

theorem equiv_signers_wf {d e : LedgerEntryData} (h : d.equiv e) :
    (d.mustAccount.signerSponsors.map Prod.fst).Nodup := by
  cases d <;> cases e <;>
    simp_all [LedgerEntryData.equiv, LedgerEntryData.mustAccount,
      AccountEntry.equiv, signerListWF]

theorem optEquiv_bind_sponsoringID {p q : Option LedgerEntry}
    (h : optEquiv LedgerEntry.equiv p q) :
    p.bind (fun e => e.sponsoringID) = q.bind (fun e => e.sponsoringID) := by
  cases p <;> cases q <;> simp_all [optEquiv, LedgerEntry.equiv]

theorem optEquiv_isNone {α : Type} {r : α → α → Prop} {p q : Option α}
    (h : optEquiv r p q) : p.isNone = q.isNone := by
  cases p <;> cases q <;> simp_all [optEquiv]

theorem optEquiv_isSome {α : Type} {r : α → α → Prop} {p q : Option α}
    (h : optEquiv r p q) : p.isSome = q.isSome := by
  cases p <;> cases q <;> simp_all [optEquiv]

theorem optEquiv_getD_data_equiv {p q : Option LedgerEntry}
    (h : optEquiv LedgerEntry.equiv p q) :
    LedgerEntryData.equiv ((p.getD ⟨none, .offer⟩).data)
      ((q.getD ⟨none, .offer⟩).data) := by
  cases p <;> cases q
  · exact rfl
  · exact h.elim
  · exact h.elim
  · exact h.2

theorem changeData_equiv {c c' : Change} (h : Change.equiv c c') :
    (changeData c).equiv (changeData c') := by
  obtain ⟨-, hpre, hpost⟩ := h
  unfold changeData
  rcases hcpo : c.post with _ | e1 <;> rcases hcpo' : c'.post with _ | e1' <;>
    rw [hcpo, hcpo'] at hpost
  · exact optEquiv_getD_data_equiv hpre
  · exact hpost.elim
  · exact hpost.elim
  · exact hpost.2

theorem optSigners_perm {p q : Option LedgerEntry}
    (h : optEquiv LedgerEntry.equiv p q) :
    (optSigners p).Perm (optSigners q) := by
  cases p <;> cases q
  · exact List.Perm.refl _
  · exact h.elim
  · exact h.elim
  · exact equiv_signers_perm h.2

theorem optSigners_wf {p q : Option LedgerEntry}
    (h : optEquiv LedgerEntry.equiv p q) :
    ((optSigners p).map Prod.fst).Nodup := by
  cases p
  · exact List.nodup_nil
  · cases q
    · exact h.elim
    · exact equiv_signers_wf h.2

theorem optAccountId_congr {p q : Option LedgerEntry}
    (h : optEquiv LedgerEntry.equiv p q) : optAccountId p = optAccountId q := by
  cases p <;> cases q
  · rfl
  · exact h.elim
  · exact h.elim
  · exact equiv_mustAccount_accountId h.2

theorem optLP_congr {p q : Option LedgerEntry}
    (h : optEquiv LedgerEntry.equiv p q) : optLP p = optLP q := by
  cases p <;> cases q
  · rfl
  · exact h.elim
  · exact h.elim
  · exact congrArg some (equiv_mustLiquidityPool h.2)

theorem optCB_congr {p q : Option LedgerEntry}
    (h : optEquiv LedgerEntry.equiv p q) :
    ((p.getD ⟨none, LedgerEntryData.offer⟩).data).mustClaimableBalance =
      ((q.getD ⟨none, LedgerEntryData.offer⟩).data).mustClaimableBalance := by
  cases p <;> cases q
  · rfl
  · exact h.elim
  · exact h.elim
  · exact equiv_mustClaimableBalance h.2

theorem lookup_perm_nodup {l1 l2 : List (String × String)}
    (h : l1.Perm l2) :
    (l1.map Prod.fst).Nodup → ∀ k, List.lookup k l1 = List.lookup k l2 := by
  induction h with
  | nil => intro _ _; rfl
  | cons a h ih =>
      intro nd k
      obtain ⟨a1, a2⟩ := a
      simp only [List.map_cons, List.nodup_cons] at nd
      cases hk : k == a1 <;> simp [List.lookup, hk, ih nd.2 k]
  | swap x y l =>
      intro nd k
      obtain ⟨x1, x2⟩ := x
      obtain ⟨y1, y2⟩ := y
      have hyx : y1 ≠ x1 := by
        have h' := nd
        simp only [List.map_cons, List.nodup_cons, List.mem_cons,
          not_or] at h'
        exact h'.1.1
      cases h1 : k == y1 <;> cases h2 : k == x1
      · simp [List.lookup, h1, h2]
      · simp [List.lookup, h1, h2]
      · simp [List.lookup, h1, h2]
      · exact absurd ((eq_of_beq h1).symm.trans (eq_of_beq h2)) hyx
  | trans h1 h2 ih1 ih2 =>
      intro nd k
      rw [ih1 nd k, ih2 (((h1.map Prod.fst).nodup_iff).mp nd) k]

theorem addLES_abs (ctx : OperationContext) (c : Change) :
    addLedgerEntrySponsorshipEffects ctx c =
      addLESabs ctx c.type (c.pre.bind (fun e => e.sponsoringID))
        (c.post.bind (fun e => e.sponsoringID))
        (changeData c).mustAccount.accountId (changeData c).mustTrustLine
        (changeData c).mustData (changeData c).mustClaimableBalance := by
  obtain ⟨t, p, q⟩ := c
  rcases p with _ | e1 <;> rcases q with _ | e2 <;> cases t <;> rfl

theorem addSS_abs (ctx : OperationContext) (c : Change) :
    addSignerSponsorshipEffects ctx c =
      addSSabs ctx c.type (optSigners c.pre) (optSigners c.post)
        (optAccountId c.pre) (optAccountId c.post) := by
  obtain ⟨t, p, q⟩ := c
  rcases p with _ | e1 <;> rcases q with _ | e2 <;> rfl

theorem addLPL_abs (ctx : OperationContext) (c : Change) :
    addLedgerEntryLiquidityPoolEffects ctx c =
      addLPLabs ctx c.type (optLP c.pre) (optLP c.post) := by
  obtain ⟨t, p, q⟩ := c
  rcases p with _ | e1 <;> rcases q with _ | e2 <;> rfl

theorem contains_perm_eq {l1 l2 : List String} (h : l1.Perm l2)
    (a : String) : l1.contains a = l2.contains a := by
  rw [Bool.eq_iff_iff]
  constructor <;> intro hx
  · exact List.elem_iff.mpr (h.mem_iff.mp (List.elem_iff.mp hx))
  · exact List.elem_iff.mpr (h.mem_iff.mpr (List.elem_iff.mp hx))

theorem addSSabs_congr (ctx : OperationContext) (t : LedgerEntryType)
    {ps ps' qs qs' : List (String × String)} (hp : ps.Perm ps')
    (hq : qs.Perm qs') (ndp : (ps.map Prod.fst).Nodup)
    (ndq : (qs.map Prod.fst).Nodup) (preId postId : String) :
    addSSabs ctx t ps qs preId postId =
      addSSabs ctx t ps' qs' preId postId := by
  simp only [addSSabs]
  by_cases hA : t ≠ LedgerEntryType.account
  · rw [if_pos hA, if_pos hA]
  · rw [if_neg hA, if_neg hA]
    have hfil : (qs.map Prod.fst).filter
          (fun s => ¬ (ps.map Prod.fst).contains s) =
        (qs.map Prod.fst).filter
          (fun s => ¬ (ps'.map Prod.fst).contains s) := by
      apply List.filter_congr
      intro a _
      rw [contains_perm_eq (hp.map Prod.fst) a]
    have hall : List.insertionSort (fun a b : String => a ≤ b)
          ((ps.map Prod.fst) ++ (qs.map Prod.fst).filter
            (fun s => ¬ (ps.map Prod.fst).contains s)) =
        List.insertionSort (fun a b : String => a ≤ b)
          ((ps'.map Prod.fst) ++ (qs'.map Prod.fst).filter
            (fun s => ¬ (ps'.map Prod.fst).contains s)) := by
      have hperm : ((ps.map Prod.fst) ++ (qs.map Prod.fst).filter
            (fun s => ¬ (ps'.map Prod.fst).contains s)).Perm
          ((ps'.map Prod.fst) ++ (qs'.map Prod.fst).filter
            (fun s => ¬ (ps'.map Prod.fst).contains s)) :=
        (hp.map Prod.fst).append ((hq.map Prod.fst).filter _)
      rw [hfil]
      exact List.eq_of_perm_of_sorted
        ((List.perm_insertionSort _ _).trans (hperm.trans
          (List.perm_insertionSort _ _).symm))
        (List.sorted_insertionSort _ _) (List.sorted_insertionSort _ _)
    rw [hall]
    refine congrArg List.flatten (List.map_congr_left fun signer _ => ?_)
    rw [lookup_perm_nodup hp ndp signer, lookup_perm_nodup hq ndq signer]

theorem entrySponsorship_congr (ctx : OperationContext) {c c' : Change}
    (h : Change.equiv c c') :
    addLedgerEntrySponsorshipEffects ctx c =
      addLedgerEntrySponsorshipEffects ctx c' := by
  have hdd := changeData_equiv h
  obtain ⟨ht, hpre, hpost⟩ := h
  rw [addLES_abs, addLES_abs, ht, optEquiv_bind_sponsoringID hpre,
    optEquiv_bind_sponsoringID hpost, equiv_mustAccount_accountId hdd,
    equiv_mustTrustLine hdd, equiv_mustData hdd,
    equiv_mustClaimableBalance hdd]

theorem signerSponsorship_congr (ctx : OperationContext) {c c' : Change}
    (h : Change.equiv c c') :
    addSignerSponsorshipEffects ctx c =
      addSignerSponsorshipEffects ctx c' := by
  obtain ⟨ht, hpre, hpost⟩ := h
  rw [addSS_abs, addSS_abs, ht, optAccountId_congr hpre,
    optAccountId_congr hpost]
  exact addSSabs_congr ctx c'.type (optSigners_perm hpre)
    (optSigners_perm hpost) (optSigners_wf hpre) (optSigners_wf hpost) _ _

theorem lifecycle_congr (ctx : OperationContext) {c c' : Change}
    (h : Change.equiv c c') :
    addLedgerEntryLiquidityPoolEffects ctx c =
      addLedgerEntryLiquidityPoolEffects ctx c' := by
  obtain ⟨ht, hpre, hpost⟩ := h
  rw [addLPL_abs, addLPL_abs, ht, optLP_congr hpre, optLP_congr hpost]

theorem getLPPD_abs (cs : List Change) (lpID : Option String) :
    getLiquidityPoolAndProductDelta cs lpID =
      getLPPDabs (cs.map changeLPView) lpID := by
  induction cs with
  | nil => rfl
  | cons c rest ih =>
    obtain ⟨t, p, q⟩ := c
    rcases p with _ | e1 <;> rcases q with _ | e2 <;>
      · unfold getLiquidityPoolAndProductDelta getLPPDabs
        simp only [List.map_cons]
        rw [ih]; rfl

theorem changeLPView_congr {c c' : Change} (h : Change.equiv c c') :
    changeLPView c = changeLPView c' := by
  obtain ⟨ht, hpre, hpost⟩ := h
  unfold changeLPView
  rw [ht, optLP_congr hpre, optLP_congr hpost]

theorem mapLPView_congr {cs cs' : List Change}
    (h : List.Forall₂ Change.equiv cs cs') :
    cs.map changeLPView = cs'.map changeLPView := by
  induction h with
  | nil => rfl
  | cons hc hrest ih => simp only [List.map_cons, changeLPView_congr hc, ih]

theorem getLPPD_congr {cs cs' : List Change}
    (h : List.Forall₂ Change.equiv cs cs') (lpID : Option String) :
    getLiquidityPoolAndProductDelta cs lpID =
      getLiquidityPoolAndProductDelta cs' lpID := by
  rw [getLPPD_abs, getLPPD_abs, mapLPView_congr h]

theorem createdCB_congr {cs cs' : List Change}
    (h : List.Forall₂ Change.equiv cs cs') :
    createdClaimableBalances cs = createdClaimableBalances cs' := by
  induction h with
  | nil => rfl
  | cons hc hrest ih =>
    rename_i a b l1 l2
    obtain ⟨ht, hpre, hpost⟩ := hc
    have h1 : a.pre.isNone = b.pre.isNone := optEquiv_isNone hpre
    have h2 : a.post.isSome = b.post.isSome := optEquiv_isSome hpost
    unfold createdClaimableBalances at ih ⊢
    simp only [List.filter_cons]
    rw [ht, h1, h2]
    by_cases hcond : (b.type == LedgerEntryType.claimableBalance &&
        b.pre.isNone && b.post.isSome) = true
    · rw [if_pos hcond, if_pos hcond]
      simp only [List.map_cons]
      rw [optCB_congr hpost, ih]
    · rw [if_neg hcond, if_neg hcond, ih]

theorem assetToCBID_congr {cs cs' : List Change}
    (h : List.Forall₂ Change.equiv cs cs') :
    assetToCBID cs = assetToCBID cs' := by
  unfold assetToCBID
  rw [createdCB_congr h]

theorem addCLPTE_setCongr (ctx : OperationContext) (cs' : List Change)
    (h : List.Forall₂ Change.equiv ctx.changes cs')
    (claim : ClaimLiquidityAtom) :
    addClaimLiquidityPoolTradeEffect (ctx.setChanges cs') claim =
      addClaimLiquidityPoolTradeEffect ctx claim := by
  unfold addClaimLiquidityPoolTradeEffect
  rw [show (ctx.setChanges cs').changes = cs' from rfl,
    ← getLPPD_congr h (some claim.liquidityPoolId)]
  rfl

theorem addIngest_setCongr (ctx : OperationContext) (cs' : List Change)
    (h : List.Forall₂ Change.equiv ctx.changes cs') :
    ∀ (buyer : MuxedAccount) (claims : List ClaimAtom) (ipp : Bool),
      addIngestTradeEffects (ctx.setChanges cs') buyer claims ipp =
        addIngestTradeEffects ctx buyer claims ipp := by
  intro buyer claims
  induction claims with
  | nil => intro ipp; rfl
  | cons claim rest ih =>
    intro ipp
    unfold addIngestTradeEffects
    by_cases hz : (claim.amountSold == 0 && claim.amountBought == 0) = true
    · rw [if_pos hz, if_pos hz]
      exact ih ipp
    · rw [if_neg hz, if_neg hz]
      simp only [addCLPTE_setCongr ctx cs' h, ih]
      rfl

theorem lpRevoked_setCongr (ctx : OperationContext) (cs' : List Change)
    (h : List.Forall₂ Change.equiv ctx.changes cs') :
    addLiquidityPoolRevokedEffect (ctx.setChanges cs') =
      addLiquidityPoolRevokedEffect ctx := by
  unfold addLiquidityPoolRevokedEffect
  rw [show (ctx.setChanges cs').changes = cs' from rfl,
    ← getLPPD_congr h (none : Option String), ← createdCB_congr h,
    ← assetToCBID_congr h]
  rfl

theorem ppsrGen_setCongr (ctx : OperationContext) (cs' : List Change)
    (h : List.Forall₂ Change.equiv ctx.changes cs')
    (op : PathPaymentStrictReceiveOp) :
    pathPaymentStrictReceiveEffects (ctx.setChanges cs') op =
      pathPaymentStrictReceiveEffects ctx op := by
  unfold pathPaymentStrictReceiveEffects
  simp only [addIngest_setCongr ctx cs' h]
  rfl

theorem ppssGen_setCongr (ctx : OperationContext) (cs' : List Change)
    (h : List.Forall₂ Change.equiv ctx.changes cs')
    (op : PathPaymentStrictSendOp) :
    addPathPaymentStrictSendEffects (ctx.setChanges cs') op =
      addPathPaymentStrictSendEffects ctx op := by
  unfold addPathPaymentStrictSendEffects
  simp only [addIngest_setCongr ctx cs' h]
  rfl

theorem msoGen_setCongr (ctx : OperationContext) (cs' : List Change)
    (h : List.Forall₂ Change.equiv ctx.changes cs') :
    addManageSellOfferEffects (ctx.setChanges cs') =
      addManageSellOfferEffects ctx := by
  unfold addManageSellOfferEffects
  simp only [addIngest_setCongr ctx cs' h]
  rfl

theorem mboGen_setCongr (ctx : OperationContext) (cs' : List Change)
    (h : List.Forall₂ Change.equiv ctx.changes cs') :
    addManageBuyOfferEffects (ctx.setChanges cs') =
      addManageBuyOfferEffects ctx := by
  unfold addManageBuyOfferEffects
  simp only [addIngest_setCongr ctx cs' h]
  rfl

theorem cpsoGen_setCongr (ctx : OperationContext) (cs' : List Change)
    (h : List.Forall₂ Change.equiv ctx.changes cs') :
    addCreatePassiveSellOfferEffect (ctx.setChanges cs') =
      addCreatePassiveSellOfferEffect ctx := by
  unfold addCreatePassiveSellOfferEffect
  simp only [addIngest_setCongr ctx cs' h]
  rfl

theorem allowTrustGen_setCongr (ctx : OperationContext) (cs' : List Change)
    (h : List.Forall₂ Change.equiv ctx.changes cs') (op : AllowTrustOp) :
    addAllowTrustEffects (ctx.setChanges cs') op =
      addAllowTrustEffects ctx op := by
  unfold addAllowTrustEffects
  simp only [lpRevoked_setCongr ctx cs' h]
  rfl

theorem stlfGen_setCongr (ctx : OperationContext) (cs' : List Change)
    (h : List.Forall₂ Change.equiv ctx.changes cs')
    (op : SetTrustLineFlagsOp) :
    addSetTrustLineFlagsEffects (ctx.setChanges cs') op =
      addSetTrustLineFlagsEffects ctx op := by
  unfold addSetTrustLineFlagsEffects
  simp only [lpRevoked_setCongr ctx cs' h]
  rfl

theorem dispatch_setCongr (ctx : OperationContext) (cs' : List Change)
    (h : List.Forall₂ Change.equiv ctx.changes cs') :
    dispatchGenerator (ctx.setChanges cs') = dispatchGenerator ctx := by
  unfold dispatchGenerator
  rw [show (ctx.setChanges cs').body = ctx.body from rfl]
  cases hb : ctx.body
  case payment op => rfl
  case pathPaymentStrictReceive op => exact ppsrGen_setCongr ctx cs' h op
  case pathPaymentStrictSend op => exact ppssGen_setCongr ctx cs' h op
  case manageSellOffer => exact msoGen_setCongr ctx cs' h
  case manageBuyOffer => exact mboGen_setCongr ctx cs' h
  case createPassiveSellOffer => exact cpsoGen_setCongr ctx cs' h
  case allowTrust op => exact allowTrustGen_setCongr ctx cs' h op
  case setTrustLineFlags op => exact stlfGen_setCongr ctx cs' h op
  case beginSponsoringFutureReserves => rfl
  case endSponsoringFutureReserves => rfl
  case revokeSponsorship => rfl
  case unknownKind => rfl

theorem sweep_congr (ctx : OperationContext) (cs0 : List Change)
    {cs cs' : List Change} (h : List.Forall₂ Change.equiv cs cs') :
    sponsorshipSweep (ctx.setChanges cs0) cs' = sponsorshipSweep ctx cs := by
  induction h with
  | nil => rfl
  | cons hc hrest ih =>
    rename_i a b l1 l2
    unfold sponsorshipSweep
    rw [show addLedgerEntrySponsorshipEffects (ctx.setChanges cs0) b =
          addLedgerEntrySponsorshipEffects ctx b from rfl,
      ← entrySponsorship_congr ctx hc,
      show addSignerSponsorshipEffects (ctx.setChanges cs0) b =
          addSignerSponsorshipEffects ctx b from rfl,
      ← signerSponsorship_congr ctx hc, ih]

theorem lpLifecycleList_congr (ctx : OperationContext) (cs0 : List Change)
    {cs cs' : List Change} (h : List.Forall₂ Change.equiv cs cs') :
    (cs'.map (addLedgerEntryLiquidityPoolEffects
      (ctx.setChanges cs0))).flatten =
      (cs.map (addLedgerEntryLiquidityPoolEffects ctx)).flatten := by
  induction h with
  | nil => rfl
  | cons hc hrest ih =>
    rename_i a b l1 l2
    simp only [List.map_cons, List.flatten_cons]
    rw [show addLedgerEntryLiquidityPoolEffects (ctx.setChanges cs0) b =
          addLedgerEntryLiquidityPoolEffects ctx b from rfl,
      ← lifecycle_congr ctx hc, ih]

theorem stampFrom_setCongr (ctx : OperationContext) (cs0 : List Change) :
    ∀ (l : List EffectOutput) (n : Nat),
      stampFrom (ctx.setChanges cs0) n l = stampFrom ctx n l := by
  intro l
  induction l with
  | nil => intro n; rfl
  | cons e rest ih =>
    intro n
    unfold stampFrom
    rw [ih]
    rfl

theorem effects_congr (ctx : OperationContext) (cs' : List Change)
    (h : List.Forall₂ Change.equiv ctx.changes cs') :
    effects (ctx.setChanges cs') = effects ctx := by
  unfold effects
  rw [show (ctx.setChanges cs').txSuccessful = ctx.txSuccessful from rfl,
    show (ctx.setChanges cs').changes = cs' from rfl]
  by_cases hs : ¬ (ctx.txSuccessful = true)
  · rw [if_pos hs, if_pos hs]
  · rw [if_neg hs, if_neg hs, dispatch_setCongr ctx cs' h,
      sweep_congr ctx cs' h, lpLifecycleList_congr ctx cs' h]
    simp only [stampFrom_setCongr ctx cs']

/-- C9: the effect derivation is a pure function of its input up to the
unordered signer-sponsor maps: two runs on equivalent inputs (same
operation, change sequence, result and ledger metadata, with the
per-signer sponsor maps of account entries listed in any order) return
identical effect lists, element for element, including order and all
detail key/value contents — the internal map iteration order is not
observable because the signer sweep sorts the union of signer keys
before emission. -/
theorem c9_determinism (x y : OperationContext)
    (h : OperationContext.equiv x y) : effects x = effects y := by
  obtain ⟨h1, h2, h3, h4, h5, h6, h7, h8, h9, h10, h11⟩ := h
  have hy : y = x.setChanges y.changes := by
    obtain ⟨xi, xt, xs, xsa, xo, xb, xr, xc, xl, xcl, xn⟩ := x
    obtain ⟨yi, yt, ys, ysa, yo, yb, yr, yc, yl, ycl, yn⟩ := y
    simp_all [OperationContext.setChanges]
  have hcg := effects_congr x y.changes h8
  rw [← hy] at hcg
  exact hcg.symm

/-- Witness for C9: two concrete contexts whose only difference is the
listing order of a two-entry signer-sponsor map derive equal effect
lists. -/
theorem c9_determinism_witness :
    OperationContext.equiv ctxSignersA ctxSignersB ∧
      effects ctxSignersA = effects ctxSignersB := by
  have hequiv : OperationContext.equiv ctxSignersA ctxSignersB := by
    refine ⟨rfl, rfl, rfl, rfl, rfl, rfl, rfl, ?_, rfl, rfl, rfl⟩
    refine List.Forall₂.cons ⟨rfl, True.intro, rfl, rfl, ?_, ?_⟩
      List.Forall₂.nil
    · decide
    · show (acctSignersA.signerSponsors.map Prod.fst).Nodup
      decide
  exact ⟨hequiv, c9_determinism ctxSignersA ctxSignersB hequiv⟩

end StellarEtl
